import Mathlib

/-!
Verification of the Axon attention/workspace engine and cognitive-cycle
orchestrator.

The TypeScript sources are shallowly embedded in Lean:
* JavaScript numbers are modelled as real numbers (`ℝ`).
* The insertion-ordered `Map<string, ThoughtChunk>` of the workspace is
  modelled as a `List ThoughtChunk` in insertion order; `Map.set` replaces
  in place when the key exists and appends otherwise.
* Code that `throw`s is modelled with `Except String`.
* `nanoid()` / `uuidv4()` fresh-id generation is modelled by an explicit
  id supply passed in by the caller.
* The mutable `chunk.activationEnergy` field is modelled by returning an
  updated chunk / workspace.
-/

namespace Axon

noncomputable section

/-- Embeds the `ThoughtChunk` class fields (from `thought-chunk.ts`).
`contentVector` is the optional embedding.  The `createdAt` timestamp is
omitted: no algorithm in the core ever reads it. -/
structure ThoughtChunk where
  id : String
  content : String
  contentVector : Option (List ℝ)
  activationEnergy : ℝ
  sourceAgentId : String
  parentIds : List String

/-- `ThoughtChunk.decay`: `this.activationEnergy *= decayRate`. -/
def ThoughtChunk.decay (c : ThoughtChunk) (decayRate : ℝ) : ThoughtChunk :=
  { c with activationEnergy := c.activationEnergy * decayRate }

/-- `ThoughtChunk.boost`: `this.activationEnergy += amount`. -/
def ThoughtChunk.boost (c : ThoughtChunk) (amount : ℝ) : ThoughtChunk :=
  { c with activationEnergy := c.activationEnergy + amount }

/-- `WorkspaceConfig` (from `workspace.ts`). -/
structure WorkspaceConfig where
  decayRate : ℝ
  activationThreshold : ℝ
  baseActivationEnergy : ℝ
  maxResonanceFactor : ℝ

/-- The `Workspace` class: the insertion-ordered chunk map plus its
configuration. -/
structure Workspace where
  chunks : List ThoughtChunk
  config : WorkspaceConfig

/-- `Workspace.addChunk`: `this.chunks.set(chunk.id, chunk)`.
A JavaScript `Map.set` with an existing key overwrites the entry in
place (keeping its position); a new key is appended. -/
def Workspace.addChunk (w : Workspace) (chunk : ThoughtChunk) : Workspace :=
  if w.chunks.any (fun d => d.id == chunk.id) then
    { w with chunks := w.chunks.map (fun d => if d.id == chunk.id then chunk else d) }
  else
    { w with chunks := w.chunks ++ [chunk] }

/-- `Workspace.getChunk`: `this.chunks.get(id)`. -/
def Workspace.getChunk (w : Workspace) (id : String) : Option ThoughtChunk :=
  w.chunks.find? (fun c => c.id == id)

/-- `Workspace.getAllChunks`: `Array.from(this.chunks.values())`. -/
def Workspace.getAllChunks (w : Workspace) : List ThoughtChunk :=
  w.chunks

/-- `Workspace.cosineSimilarity` (identical code is also
`EmbeddingService.calculateSimilarity` in `embedding-service.ts`):
throws on mismatched lengths, otherwise dot product over the product of
Euclidean norms, with 0 when either squared norm is 0. -/
def cosineSimilarity (vecA vecB : List ℝ) : Except String ℝ :=
  if vecA.length ≠ vecB.length then
    .error "Vectors must have the same dimensions"
  else
    let dotProduct := (List.zipWith (fun x y => x * y) vecA vecB).sum
    let normA := (vecA.map (fun x => x * x)).sum
    let normB := (vecB.map (fun x => x * x)).sum
    if normA = 0 ∨ normB = 0 then .ok 0
    else .ok (dotProduct / (Real.sqrt normA * Real.sqrt normB))

/-- The numeric value computed by `cosineSimilarity` once the length
guard has passed; used to state properties of the similarity score. -/
def cosSimVal (vecA vecB : List ℝ) : ℝ :=
  let dotProduct := (List.zipWith (fun x y => x * y) vecA vecB).sum
  let normA := (vecA.map (fun x => x * x)).sum
  let normB := (vecB.map (fun x => x * x)).sum
  if normA = 0 ∨ normB = 0 then 0
  else dotProduct / (Real.sqrt normA * Real.sqrt normB)

theorem cosineSimilarity_eq_ok {vecA vecB : List ℝ} (h : vecA.length = vecB.length) :
    cosineSimilarity vecA vecB = .ok (cosSimVal vecA vecB) := by
  unfold cosineSimilarity cosSimVal
  simp only [h, ne_eq, not_true_eq_false, if_false, ite_not]
  split <;> rfl

/-- `Workspace.calculateResonance`: the loop over `parentIds`
accumulating `totalResonance` and `validParentCount`; parents missing
from the map or lacking an embedding are skipped.  A similarity error
(mismatched dimensions) propagates, as the TypeScript `throw` would. -/
def Workspace.calculateResonance (w : Workspace) (contentVector : List ℝ)
    (parentIds : List String) : Except String ℝ := do
  let acc ← parentIds.foldlM
    (fun (acc : ℝ × ℕ) parentId => do
      match w.getChunk parentId with
      | none => pure acc
      | some parentChunk =>
        match parentChunk.contentVector with
        | none => pure acc
        | some pv => do
          let similarity ← cosineSimilarity contentVector pv
          pure (acc.1 + similarity * parentChunk.activationEnergy, acc.2 + 1))
    ((0 : ℝ), (0 : ℕ))
  if acc.2 = 0 then pure 0
  else pure (acc.1 / (acc.2 : ℝ) * w.config.maxResonanceFactor)

/-- `Workspace.createChunk`: initial activation is
`baseActivationEnergy` plus the resonance when an embedding is supplied
and `parentIds` is non-empty.  The fresh `nanoid()` is modelled by the
explicit `newId` argument.  Returns the updated workspace together with
the created chunk. -/
def Workspace.createChunk (w : Workspace) (newId : String) (content : String)
    (contentVector : Option (List ℝ)) (sourceAgentId : String)
    (parentIds : List String) : Except String (Workspace × ThoughtChunk) := do
  let initialActivation ←
    match contentVector with
    | some cv =>
      if parentIds.length > 0 then do
        let resonanceFactor ← w.calculateResonance cv parentIds
        pure (w.config.baseActivationEnergy + resonanceFactor)
      else
        pure w.config.baseActivationEnergy
    | none => pure w.config.baseActivationEnergy
  let chunk : ThoughtChunk :=
    { id := newId, content := content, contentVector := contentVector,
      activationEnergy := initialActivation, sourceAgentId := sourceAgentId,
      parentIds := parentIds }
  pure (w.addChunk chunk, chunk)

/-- `Workspace.decayActivations`: applies `decay(decayRate)` to every
chunk in the map. -/
def Workspace.decayActivations (w : Workspace) : Workspace :=
  { w with chunks := w.chunks.map (fun c => c.decay w.config.decayRate) }

/-- Stable insertion used to model the (stable) JavaScript
`Array.prototype.sort` with comparator `(a, b) => b.activationEnergy -
a.activationEnergy`: walking past the strictly more energetic elements,
an element is inserted before the first element of energy less than or
equal to its own, so that under the right fold below equal energies
keep their original order. -/
def insertByEnergyDesc (c : ThoughtChunk) : List ThoughtChunk → List ThoughtChunk
  | [] => [c]
  | d :: ds =>
    if d.activationEnergy ≤ c.activationEnergy then c :: d :: ds
    else d :: insertByEnergyDesc c ds

/-- Stable sort by descending `activationEnergy`. -/
def sortByEnergyDesc (l : List ThoughtChunk) : List ThoughtChunk :=
  l.foldr insertByEnergyDesc []

/-- `Workspace.getMostActiveChunks`: sort all chunks by descending
energy (stably) and truncate to `limit`. -/
def Workspace.getMostActiveChunks (w : Workspace) (limit : ℕ) : List ThoughtChunk :=
  (sortByEnergyDesc w.chunks).take limit

/-- Fuel bound for the breadth-first traversal of `exploreCluster`.
Every queue element is one of the candidates; a dequeue either skips a
visited chunk or marks a new candidate visited, enqueueing at most
(its parent count + number of candidates) further chunks, so the
traversal performs at most this many dequeues. -/
def exploreFuel (activeChunks : List ThoughtChunk) : ℕ :=
  1 + activeChunks.length *
    (activeChunks.length + (activeChunks.map (fun c => c.parentIds.length)).sum + 1)

/-- The loop of `Workspace.exploreCluster`, with an explicit queue,
visited-id set and collected cluster (the `while (queue.length > 0)`
loop is embedded as fuelled structural recursion; `exploreFuel` is
enough fuel for the loop to always run to completion).  A dequeued
visited chunk is skipped; otherwise the chunk is marked visited and
appended to the cluster, then its not-yet-visited parents that are
candidates, followed by the not-yet-visited candidates listing it as a
parent, are enqueued. -/
def exploreClusterAux (activeChunks : List ThoughtChunk) :
    ℕ → List ThoughtChunk → List String → List ThoughtChunk →
    List String × List ThoughtChunk
  | 0, _, visited, cluster => (visited, cluster)
  | _ + 1, [], visited, cluster => (visited, cluster)
  | fuel + 1, current :: queue, visited, cluster =>
    if visited.contains current.id then
      exploreClusterAux activeChunks fuel queue visited cluster
    else
      let visited₁ := current.id :: visited
      let parentAdds := current.parentIds.filterMap (fun parentId =>
        match activeChunks.find? (fun c => c.id == parentId) with
        | some parentChunk =>
          if visited₁.contains parentId then none else some parentChunk
        | none => none)
      let childAdds := activeChunks.filter (fun c =>
        !(visited₁.contains c.id) && c.parentIds.contains current.id)
      exploreClusterAux activeChunks fuel (queue ++ parentAdds ++ childAdds)
        visited₁ (cluster ++ [current])

/-- `Workspace.exploreCluster`: BFS from `startChunk` over the
candidate set, sharing the `visited` set across calls.  Returns the
updated visited set together with the collected cluster. -/
def exploreCluster (startChunk : ThoughtChunk) (visited : List String)
    (activeChunks : List ThoughtChunk) : List String × List ThoughtChunk :=
  exploreClusterAux activeChunks (exploreFuel activeChunks) [startChunk] visited []

/-- Stable insertion by descending cluster total, modelling the sort of
`clusterActivations` by `(a, b) => b.totalActivation - a.totalActivation`. -/
def insertByTotalDesc (p : List ThoughtChunk × ℝ) :
    List (List ThoughtChunk × ℝ) → List (List ThoughtChunk × ℝ)
  | [] => [p]
  | q :: qs => if q.2 < p.2 then p :: q :: qs else q :: insertByTotalDesc p qs

/-- Stable sort of (cluster, total) pairs by descending total. -/
def sortByTotalDesc (l : List (List ThoughtChunk × ℝ)) :
    List (List ThoughtChunk × ℝ) :=
  l.foldr insertByTotalDesc []

/-- The total activation of a cluster:
`cluster.reduce((sum, chunk) => sum + chunk.activationEnergy, 0)`. -/
def clusterTotal (cluster : List ThoughtChunk) : ℝ :=
  (cluster.map (fun c => c.activationEnergy)).sum

/-- `Workspace.findHighEnergyCluster`: takes the top-30 most active
chunks, collects the connected clusters by repeated BFS over a shared
visited set, sorts them by total activation and returns the top cluster
when its total meets `activationThreshold`, else the empty list. -/
def Workspace.findHighEnergyCluster (w : Workspace) : List ThoughtChunk :=
  let activeChunks := w.getMostActiveChunks 30
  let scan := activeChunks.foldl
    (fun (acc : List (List ThoughtChunk) × List String) chunk =>
      if acc.2.contains chunk.id then acc
      else
        let res := exploreCluster chunk acc.2 activeChunks
        if res.2.length > 0 then (acc.1 ++ [res.2], res.1) else (acc.1, res.1))
    ([], [])
  let clusterActivations := scan.1.map (fun cluster => (cluster, clusterTotal cluster))
  match sortByTotalDesc clusterActivations with
  | [] => []
  | top :: _ => if w.config.activationThreshold ≤ top.2 then top.1 else []

/-! ## Orchestrator model

The orchestrator (`orchestrator.ts`) together with the agent classes
(`meta-agent.ts`, `specialist-agent.ts`, `base-agent.ts`).  The two
consumed generation capabilities, the one-shot specialist-definition
parser (`safeParse` composed with the Zod schema, whose internals are
generic JSON parsing), the `uuidv4()`/`nanoid()` id supplies and the
runtime float formatting `toFixed(2)` are modelled as an environment of
oracle functions; `start` is universally quantified over this
environment in every theorem.  The concurrent per-cycle specialist
fan-out is modelled as one sequential linearization (the specification
itself declares the ordering of sibling inserts within a cycle to be an
accepted, harmless nondeterminism). -/

/-- One record of the parsed specialist-definition list. -/
structure AgentDef where
  role : String
  systemPrompt : String

/-- `OrchestratorConfig`. -/
structure OrchestratorConfig where
  maxCycles : ℕ
  broadcastThreshold : ℝ

/-- The external environment consumed by the orchestrator. -/
structure Env where
  genText : String → String → Except String String
  generateEmbedding : String → Except String (List ℝ)
  parseDefs : String → Option (List AgentDef)
  uuid : ℕ → String
  toFixed2 : ℝ → String

/-- A constructed specialist agent (roster entry). -/
structure SpecialistAgent where
  id : String
  role : String
  systemPrompt : String

/-- Mutable orchestrator state: the workspace, the specialist roster
and the id-supply counter. -/
structure OrchState where
  workspace : Workspace
  specialists : List SpecialistAgent
  nextId : ℕ

/-- `BaseAgent.formatInputChunks`: each chunk as an attributed line,
joined with blank lines. -/
def formatInputChunks (env : Env) (chunks : List ThoughtChunk) : String :=
  if chunks.length = 0 then "No input chunks available."
  else
    String.intercalate "\n\n" (chunks.map (fun chunk =>
      "[Thought from " ++ chunk.sourceAgentId ++ " (Energy: " ++
        env.toFixed2 chunk.activationEnergy ++ ")]: " ++ chunk.content))

/-- The fixed system prompt of the meta-agent.  The source text embeds
the generated JSON schema; no claim depends on the exact wording, only
on it being the one fixed string used for the analysis call. -/
def metaAgentSystemPrompt : String :=
  "You are a meta-cognitive agent responsible for analyzing problems and determining the necessary specialist agents needed to solve them."

/-- The user prompt the meta-agent sends for the analysis call. -/
def metaUserPrompt (userPrompt : String) : String :=
  "\nUser Prompt: " ++ userPrompt ++
    "\n\nBased on this prompt, generate a JSON array of specialist agent definitions that can collectively solve this problem.\n    "

/-- `MetaAgent.process`: throws when no user prompt is available;
otherwise performs the generation call, catching its failure and
returning a fixed error text instead. -/
def MetaAgent.process (env : Env) (inputChunks : List ThoughtChunk) :
    Except String String :=
  let userPrompt :=
    match inputChunks.head? with
    | some c => c.content
    | none => ""
  if userPrompt = "" then .error "No user prompt provided to MetaAgent"
  else
    match env.genText metaAgentSystemPrompt (metaUserPrompt userPrompt) with
    | .ok response => .ok response
    | .error _ => .ok "Error: Unable to generate agent definitions"

/-- The user prompt a specialist sends for its generation call. -/
def specialistUserPrompt (role formattedInput : String) : String :=
  "\nAs a " ++ role ++
    ", analyze the following thoughts from other agents and contribute your specialized insight:\n\n" ++
    formattedInput ++
    "\n\nBased on your expertise, generate a thoughtful response that builds on the existing ideas and contributes new insights.\n"

/-- `SpecialistAgent.process`: the generation call, with failures
caught and turned into a fixed per-role error text (never throws). -/
def SpecialistAgent.process (env : Env) (agent : SpecialistAgent)
    (inputChunks : List ThoughtChunk) : String :=
  match env.genText agent.systemPrompt
      (specialistUserPrompt agent.role (formatInputChunks env inputChunks)) with
  | .ok response => response
  | .error _ => "Error: Unable to generate specialist response for " ++ agent.role

/-- `Orchestrator.defineSpecialists`: run the meta-agent, record its
response as a chunk, parse the specialist definitions (null result
throws) and populate the roster. -/
def Orchestrator.defineSpecialists (env : Env) (st : OrchState) (metaId : String)
    (inputChunks : List ThoughtChunk) : Except String OrchState := do
  let metaResponse ← MetaAgent.process env inputChunks
  let metaChunk : ThoughtChunk :=
    { id := env.uuid st.nextId, content := metaResponse, contentVector := none,
      activationEnergy := 3.0, sourceAgentId := metaId,
      parentIds := inputChunks.map (fun c => c.id) }
  let st := { st with workspace := st.workspace.addChunk metaChunk,
                      nextId := st.nextId + 1 }
  match env.parseDefs metaResponse with
  | none => .error "Failed to parse specialist definitions"
  | some specialistDefinitions =>
    let roster := specialistDefinitions.foldl
      (fun (acc : List SpecialistAgent × ℕ) d =>
        (acc.1 ++ [{ id := env.uuid acc.2, role := d.role,
                     systemPrompt := d.systemPrompt }], acc.2 + 1))
      (st.specialists, st.nextId)
    pure { st with specialists := roster.1, nextId := roster.2 }

/-- The fixed system prompt of the broadcast-synthesis call. -/
def broadcastSystemPrompt : String :=
  "You are a consciousness synthesizer that integrates multiple thoughts into a coherent whole. Your output should be concise, clear, and represent the most important aspects of the input thoughts."

/-- The synthesis user prompt built from the formatted cluster. -/
def synthesisPromptFor (clusterContent : String) : String :=
  "\nYou are the Global Workspace of a cognitive system. You have received these high-activation thoughts:\n\n" ++
    clusterContent ++
    "\n\nYour task is to synthesize these thoughts into a single, coherent summary that represents the current conscious state of the system.\nFocus on integrating the most important insights while maintaining clarity and coherence.\n"

/-- The sentinel text returned when broadcast synthesis fails. -/
def broadcastFailureSentinel : String := "Error during broadcast synthesis"

/-- The cluster formatting of `processBroadcast`: each chunk as an
attributed line, joined with blank lines. -/
def clusterContentFor (cluster : List ThoughtChunk) : String :=
  String.intercalate "\n\n"
    (cluster.map (fun chunk => "[" ++ chunk.sourceAgentId ++ "]: " ++ chunk.content))

/-- `Orchestrator.processBroadcast`: format the cluster, run the
synthesis generation call; on success derive an embedding (non-fatal),
create the broadcast chunk with the cluster members as parents and
boost it by 5.0; the `try`/`catch` turns any failure inside the block
(the generation call, or a chunk-creation error) into the fixed
sentinel string. -/
def Orchestrator.processBroadcast (env : Env) (st : OrchState)
    (cluster : List ThoughtChunk) : OrchState × String :=
  let clusterContent := clusterContentFor cluster
  match env.genText broadcastSystemPrompt (synthesisPromptFor clusterContent) with
  | .error _ => (st, broadcastFailureSentinel)
  | .ok synthesis =>
    let contentVector : Option (List ℝ) := (env.generateEmbedding synthesis).toOption
    match st.workspace.createChunk (env.uuid st.nextId) synthesis contentVector
        "broadcast" (cluster.map (fun c => c.id)) with
    | .error _ => (st, broadcastFailureSentinel)
    | .ok res =>
      let boosted := res.2.boost 5.0
      ({ st with workspace := res.1.addChunk boosted, nextId := st.nextId + 1 },
        synthesis)

/-- `Orchestrator.runCognitiveCycle`: snapshot the top-10 active
chunks (empty snapshot ends the cycle early with no broadcast), let
every specialist contribute a chunk (its generation failure yields its
error text, its embedding failure drops only the vector, and a
chunk-creation error is swallowed by the per-agent handler), then decay
every chunk once and run the cluster check, broadcasting when a
cluster is found. -/
def Orchestrator.runCognitiveCycle (env : Env) (st : OrchState) :
    OrchState × Option String :=
  let activeChunks := st.workspace.getMostActiveChunks 10
  if activeChunks.length = 0 then (st, none)
  else
    let st1 := st.specialists.foldl
      (fun (acc : OrchState) agent =>
        let thought := agent.process env activeChunks
        let contentVector : Option (List ℝ) :=
          (env.generateEmbedding thought).toOption
        match acc.workspace.createChunk (env.uuid acc.nextId) thought contentVector
            agent.id (activeChunks.map (fun c => c.id)) with
        | .ok res => { acc with workspace := res.1, nextId := acc.nextId + 1 }
        | .error _ => acc)
      st
    let st2 := { st1 with workspace := st1.workspace.decayActivations }
    let highEnergyCluster : List ThoughtChunk := st2.workspace.findHighEnergyCluster
    if highEnergyCluster.length > 0 then
      let res := Orchestrator.processBroadcast env st2 highEnergyCluster
      (res.1, some res.2)
    else
      (st2, none)

/-- The `while (cycleCount < maxCycles)` loop of `Orchestrator.start`:
runs cycles, pushing each cycle's broadcast (when one occurred and is a
truthy, i.e. non-empty, string) and remembering it as the final
broadcast. -/
def cycleLoop (env : Env) (maxCycles : ℕ) (st : OrchState)
    (broadcasts : List String) (finalBroadcast : String) (cycleCount : ℕ) :
    OrchState × List String × String × ℕ :=
  if cycleCount < maxCycles then
    let step := Orchestrator.runCognitiveCycle env st
    match step.2 with
    | some b =>
      if b = "" then
        cycleLoop env maxCycles step.1 broadcasts finalBroadcast (cycleCount + 1)
      else
        cycleLoop env maxCycles step.1 (broadcasts ++ [b]) b (cycleCount + 1)
    | none => cycleLoop env maxCycles step.1 broadcasts finalBroadcast (cycleCount + 1)
  else
    (st, broadcasts, finalBroadcast, cycleCount)
termination_by maxCycles - cycleCount
decreasing_by all_goals omega

/-- The result record of a run (`CognitiveResult`); the wall-clock
start/end timestamps of the stats block are not modelled. -/
structure CognitiveResult where
  finalBroadcast : String
  broadcasts : List String
  cyclesExecuted : ℕ
  thoughts : List ThoughtChunk
  totalAgents : ℕ

/-- `Orchestrator.start`: ingest the user prompt with activation 5.0,
define the specialists (any failure there is rethrown as the one fatal
error), run the cycle loop, and assemble the result. -/
def Orchestrator.start (env : Env) (wcfg : WorkspaceConfig)
    (cfg : OrchestratorConfig) (userPrompt : String) :
    Except String CognitiveResult :=
  let metaId := env.uuid 0
  let initialChunk : ThoughtChunk :=
    { id := env.uuid 1, content := userPrompt, contentVector := none,
      activationEnergy := 5.0, sourceAgentId := "user", parentIds := [] }
  let st0 : OrchState :=
    { workspace := { chunks := [], config := wcfg }, specialists := [], nextId := 2 }
  let st1 := { st0 with workspace := st0.workspace.addChunk initialChunk }
  match Orchestrator.defineSpecialists env st1 metaId [initialChunk] with
  | .error _ => .error "Failed to define specialists"
  | .ok st2 =>
    let res := cycleLoop env cfg.maxCycles st2 [] "" 0
    .ok { finalBroadcast := res.2.2.1, broadcasts := res.2.1,
          cyclesExecuted := res.2.2.2, thoughts := res.1.workspace.getAllChunks,
          totalAgents := res.1.specialists.length + 1 }

/-! ## General lemmas about the energy sort -/

theorem insertByEnergyDesc_perm (c : ThoughtChunk) (l : List ThoughtChunk) :
    List.Perm (insertByEnergyDesc c l) (c :: l) := by
  induction l with
  | nil => simp [insertByEnergyDesc]
  | cons d ds ih =>
    unfold insertByEnergyDesc
    split
    · exact List.Perm.refl _
    · exact (List.Perm.cons d ih).trans (List.Perm.swap c d ds)

theorem sortByEnergyDesc_perm (l : List ThoughtChunk) :
    List.Perm (sortByEnergyDesc l) l := by
  induction l with
  | nil => simp [sortByEnergyDesc]
  | cons c cs ih =>
    exact (insertByEnergyDesc_perm c (sortByEnergyDesc cs)).trans (List.Perm.cons c ih)

theorem mem_insertByEnergyDesc {x c : ThoughtChunk} {l : List ThoughtChunk} :
    x ∈ insertByEnergyDesc c l ↔ x = c ∨ x ∈ l := by
  rw [(insertByEnergyDesc_perm c l).mem_iff, List.mem_cons]

theorem insertByEnergyDesc_pairwise (c : ThoughtChunk) (l : List ThoughtChunk)
    (h : l.Pairwise (fun a b => b.activationEnergy ≤ a.activationEnergy)) :
    (insertByEnergyDesc c l).Pairwise
      (fun a b => b.activationEnergy ≤ a.activationEnergy) := by
  induction l with
  | nil => simp [insertByEnergyDesc]
  | cons d ds ih =>
    rw [List.pairwise_cons] at h
    unfold insertByEnergyDesc
    split
    · rename_i hle
      refine List.pairwise_cons.mpr ⟨?_, List.pairwise_cons.mpr h⟩
      intro x hx
      rcases List.mem_cons.mp hx with rfl | hx
      · exact hle
      · exact le_trans (h.1 x hx) hle
    · rename_i hgt
      refine List.pairwise_cons.mpr ⟨?_, ih h.2⟩
      intro x hx
      rcases mem_insertByEnergyDesc.mp hx with rfl | hx
      · exact le_of_lt (lt_of_not_le hgt)
      · exact h.1 x hx

theorem sortByEnergyDesc_pairwise (l : List ThoughtChunk) :
    (sortByEnergyDesc l).Pairwise
      (fun a b => b.activationEnergy ≤ a.activationEnergy) := by
  induction l with
  | nil => simp [sortByEnergyDesc]
  | cons c cs ih => exact insertByEnergyDesc_pairwise c (sortByEnergyDesc cs) ih

theorem getMostActiveChunks_pairwise (w : Workspace) (n : ℕ) :
    (w.getMostActiveChunks n).Pairwise
      (fun a b => b.activationEnergy ≤ a.activationEnergy) :=
  (sortByEnergyDesc_pairwise w.chunks).sublist (List.take_sublist n _)

theorem getMostActiveChunks_subset (w : Workspace) (n : ℕ) :
    ∀ x ∈ w.getMostActiveChunks n, x ∈ w.chunks := fun x hx =>
  (sortByEnergyDesc_perm w.chunks).mem_iff.mp
    ((List.take_sublist n _).mem hx)

/-! ## Characterization of the resonance computation -/

/-- The parents that actually contribute to the resonance of a new
chunk: those parent ids that are present in the workspace and carry an
embedding, each yielding its embedding and current activation energy.
Used to state what `calculateResonance` computes. -/
def resonanceContributors (w : Workspace) (parentIds : List String) :
    List (List ℝ × ℝ) :=
  parentIds.filterMap (fun parentId =>
    match w.getChunk parentId with
    | none => none
    | some parentChunk =>
      match parentChunk.contentVector with
      | none => none
      | some pv => some (pv, parentChunk.activationEnergy))

/-- The resonance value: the average of the energy-weighted cosine
similarities over the contributing parents, scaled by
`maxResonanceFactor`; 0 when no parent contributes. -/
def resonanceValue (w : Workspace) (cv : List ℝ) (parentIds : List String) : ℝ :=
  if resonanceContributors w parentIds = [] then 0
  else ((resonanceContributors w parentIds).map
      (fun pr => cosSimVal cv pr.1 * pr.2)).sum /
    ((resonanceContributors w parentIds).length : ℝ) * w.config.maxResonanceFactor

theorem okBind {ε α β : Type} (a : α) (f : α → Except ε β) :
    (Except.ok a >>= f : Except ε β) = f a := rfl

theorem errorBind {ε α β : Type} (e : ε) (f : α → Except ε β) :
    (Except.error e >>= f : Except ε β) = Except.error e := rfl

theorem calculateResonance_ok (w : Workspace) (cv : List ℝ) (pids : List String)
    (hdims : ∀ pr ∈ resonanceContributors w pids, pr.1.length = cv.length) :
    w.calculateResonance cv pids = .ok (resonanceValue w cv pids) := by
  have key : ∀ (ps : List String) (acc : ℝ × ℕ),
      (∀ pr ∈ resonanceContributors w ps, pr.1.length = cv.length) →
      List.foldlM
        (fun (acc : ℝ × ℕ) parentId => do
          match w.getChunk parentId with
          | none => pure acc
          | some parentChunk =>
            match parentChunk.contentVector with
            | none => pure acc
            | some pv => do
              let similarity ← cosineSimilarity cv pv
              pure (acc.1 + similarity * parentChunk.activationEnergy, acc.2 + 1))
        acc ps =
      .ok (acc.1 + ((resonanceContributors w ps).map
            (fun pr => cosSimVal cv pr.1 * pr.2)).sum,
          acc.2 + (resonanceContributors w ps).length) := by
    intro ps
    induction ps with
    | nil =>
      intro acc _
      simp only [resonanceContributors, List.filterMap_nil, List.foldlM_nil,
        List.map_nil, List.sum_nil, List.length_nil, add_zero]
      rfl
    | cons p rest ih =>
      intro acc hd
      rw [List.foldlM_cons]
      rcases hg : w.getChunk p with - | pc
      · have hres : resonanceContributors w (p :: rest) =
            resonanceContributors w rest := by
          simp [resonanceContributors, List.filterMap_cons, hg]
        rw [hres] at hd ⊢
        simpa [hg] using ih acc hd
      · rcases hv : pc.contentVector with - | pv
        · have hres : resonanceContributors w (p :: rest) =
              resonanceContributors w rest := by
            simp [resonanceContributors, List.filterMap_cons, hg, hv]
          rw [hres] at hd ⊢
          simpa [hg, hv] using ih acc hd
        · have hres : resonanceContributors w (p :: rest) =
              (pv, pc.activationEnergy) :: resonanceContributors w rest := by
            simp [resonanceContributors, List.filterMap_cons, hg, hv]
          rw [hres] at hd ⊢
          have hlen : cv.length = pv.length :=
            ((hd _ (List.mem_cons_self _ _))).symm
          have hrest := ih (acc.1 + cosSimVal cv pv * pc.activationEnergy, acc.2 + 1)
            (fun pr hpr => hd pr (List.mem_cons_of_mem _ hpr))
          simp only [bind_pure_comp] at hrest
          simp only [hg, hv, cosineSimilarity_eq_ok hlen, bind_pure_comp,
            Except.map_ok, okBind]
          rw [hrest]
          simp only [List.map_cons, List.sum_cons, List.length_cons,
            Except.ok.injEq, Prod.mk.injEq]
          exact ⟨by ring, by omega⟩
  unfold Workspace.calculateResonance
  rw [key pids ((0 : ℝ), (0 : ℕ)) hdims]
  rw [okBind]
  unfold resonanceValue
  rcases h : resonanceContributors w pids with - | ⟨pr, rest⟩
  · simp only [h, List.map_nil, List.sum_nil, List.length_nil, zero_add,
      Nat.cast_zero, if_pos rfl]
    rfl
  · simp only [h, List.map_cons, List.sum_cons, List.length_cons, zero_add,
      Nat.add_one_ne_zero, if_false, reduceCtorEq]
    push_cast
    rfl

theorem calculateResonance_error (w : Workspace) (cv : List ℝ) (pids : List String)
    (e : String) (h : w.calculateResonance cv pids = .error e) :
    e = "Vectors must have the same dimensions" ∧
    ∃ pid ∈ pids, ∃ p, w.getChunk pid = some p ∧
      ∃ pv, p.contentVector = some pv ∧ cv.length ≠ pv.length := by
  have key : ∀ (ps : List String) (acc : ℝ × ℕ),
      List.foldlM
        (fun (acc : ℝ × ℕ) parentId => do
          match w.getChunk parentId with
          | none => pure acc
          | some parentChunk =>
            match parentChunk.contentVector with
            | none => pure acc
            | some pv => do
              let similarity ← cosineSimilarity cv pv
              pure (acc.1 + similarity * parentChunk.activationEnergy, acc.2 + 1))
        acc ps = .error e →
      e = "Vectors must have the same dimensions" ∧
      ∃ pid ∈ ps, ∃ p, w.getChunk pid = some p ∧
        ∃ pv, p.contentVector = some pv ∧ cv.length ≠ pv.length := by
    intro ps
    induction ps with
    | nil =>
      intro acc hacc
      simp only [List.foldlM_nil] at hacc
      exact Except.noConfusion hacc
    | cons p rest ih =>
      intro acc hacc
      rw [List.foldlM_cons] at hacc
      rcases hg : w.getChunk p with - | pc
      · simp only [hg] at hacc
        obtain ⟨he, pid, hpid, hrest⟩ := ih acc hacc
        exact ⟨he, pid, List.mem_cons_of_mem _ hpid, hrest⟩
      · rcases hv : pc.contentVector with - | pv
        · simp only [hg, hv] at hacc
          obtain ⟨he, pid, hpid, hrest⟩ := ih acc hacc
          exact ⟨he, pid, List.mem_cons_of_mem _ hpid, hrest⟩
        · by_cases hlen : cv.length = pv.length
          · simp only [hg, hv, cosineSimilarity_eq_ok hlen, bind_pure_comp,
              Except.map_ok, okBind] at hacc
            obtain ⟨he, pid, hpid, hrest⟩ := ih _ hacc
            exact ⟨he, pid, List.mem_cons_of_mem _ hpid, hrest⟩
          · have hcs : cosineSimilarity cv pv =
                .error "Vectors must have the same dimensions" := by
              unfold cosineSimilarity
              rw [if_pos hlen]
            simp only [hg, hv, hcs, bind_pure_comp, Except.map_error,
              errorBind] at hacc
            exact ⟨(Except.error.inj hacc).symm ▸ rfl,
              p, List.mem_cons_self _ _, pc, hg, pv, hv, hlen⟩
  unfold Workspace.calculateResonance at h
  rcases hf : List.foldlM
      (fun (acc : ℝ × ℕ) parentId => do
        match w.getChunk parentId with
        | none => pure acc
        | some parentChunk =>
          match parentChunk.contentVector with
          | none => pure acc
          | some pv => do
            let similarity ← cosineSimilarity cv pv
            pure (acc.1 + similarity * parentChunk.activationEnergy, acc.2 + 1))
      ((0 : ℝ), (0 : ℕ)) pids with e₀ | acc₀
  · rw [hf] at h
    rw [errorBind] at h
    cases h
    exact key pids ((0 : ℝ), (0 : ℕ)) hf
  · rw [hf, okBind] at h
    split at h <;> cases h

/-- The chunk constructed by a successful `createChunk` call with a
supplied embedding and non-empty parent list. -/
def createdChunk (w : Workspace) (newId content : String) (cv : List ℝ)
    (src : String) (pids : List String) : ThoughtChunk :=
  { id := newId, content := content, contentVector := some cv,
    activationEnergy := w.config.baseActivationEnergy + resonanceValue w cv pids,
    sourceAgentId := src, parentIds := pids }

theorem createChunk_some_ok (w : Workspace) (newId content src : String)
    (cv : List ℝ) (pids : List String) (hp : pids ≠ [])
    (hdims : ∀ pr ∈ resonanceContributors w pids, pr.1.length = cv.length) :
    w.createChunk newId content (some cv) src pids =
      .ok (w.addChunk (createdChunk w newId content cv src pids),
           createdChunk w newId content cv src pids) := by
  have hlen : pids.length > 0 := List.length_pos.mpr hp
  unfold Workspace.createChunk
  simp only [hlen, if_true, calculateResonance_ok w cv pids hdims,
    bind_pure_comp, Except.map_ok, okBind]
  rfl

theorem createChunk_error_char (w : Workspace) (newId content : String)
    (cvo : Option (List ℝ)) (src : String) (pids : List String) (e : String)
    (h : w.createChunk newId content cvo src pids = .error e) :
    e = "Vectors must have the same dimensions" ∧
    ∃ cv, cvo = some cv ∧ ∃ pid ∈ pids, ∃ p, w.getChunk pid = some p ∧
      ∃ pv, p.contentVector = some pv ∧ cv.length ≠ pv.length := by
  unfold Workspace.createChunk at h
  rcases cvo with - | cv
  · simp only [bind_pure_comp, Except.map_ok] at h
    exact Except.noConfusion h
  · by_cases hlen : pids.length > 0
    · rcases hr : w.calculateResonance cv pids with e₀ | r
      · simp only [hlen, if_true, hr, bind_pure_comp, Except.map_error,
          errorBind] at h
        obtain ⟨he, rest⟩ := calculateResonance_error w cv pids e₀ hr
        exact ⟨(Except.error.inj h) ▸ he, cv, rfl, rest⟩
      · simp only [hlen, if_true, hr, bind_pure_comp, Except.map_ok, okBind] at h
        exact Except.noConfusion h
    · simp only [hlen, if_false, bind_pure_comp, Except.map_ok, okBind] at h
      exact Except.noConfusion h

/-! ## Claim C8 -/

/-- A workspace holding one chunk whose embedding has length 2, used to
show `createChunk` with a length-1 embedding propagates the
cosine-similarity dimension error. -/
def mismatchParent : ThoughtChunk :=
  { id := "mp", content := "", contentVector := some [1, 2],
    activationEnergy := 1, sourceAgentId := "user", parentIds := [] }

/-- Workspace containing `mismatchParent`. -/
def mismatchWorkspace : Workspace :=
  { chunks := [mismatchParent],
    config := { decayRate := 0.9, activationThreshold := 7,
                baseActivationEnergy := 1, maxResonanceFactor := 2 } }

/-- C8, counterexample: `createChunk` is claimed to be total and never
to raise, but calling it with a 1-dimensional embedding and a parent
whose recorded embedding is 2-dimensional propagates the
cosine-similarity dimension error out of `createChunk`. -/
theorem claim8_counterexample :
    mismatchWorkspace.createChunk "n" "t" (some [1]) "a" ["mp"] =
      .error "Vectors must have the same dimensions" := by
  rfl

/-- C8 (amended): cosine similarity on vectors of different lengths
fails with the InvalidInput-style error, and this vector-length check
is the only validated precondition in the workspace: `createChunk`
fails exactly when it propagates that same error from a parent whose
embedding length mismatches the supplied one (and succeeds whenever all
contributing parents match the supplied embedding length), and every
other operation (`addChunk`, `decayActivations`, `getMostActiveChunks`,
`findHighEnergyCluster`, `getChunk`, `getAllChunks`) is a total
function that never raises. -/
theorem claim8_preconditions :
    (∀ vecA vecB : List ℝ, vecA.length ≠ vecB.length →
      cosineSimilarity vecA vecB = .error "Vectors must have the same dimensions") ∧
    (∀ (w : Workspace) (newId content : String) (cvo : Option (List ℝ))
        (src : String) (pids : List String) (e : String),
      w.createChunk newId content cvo src pids = .error e →
        e = "Vectors must have the same dimensions" ∧
        ∃ cv, cvo = some cv ∧ ∃ pid ∈ pids, ∃ p, w.getChunk pid = some p ∧
          ∃ pv, p.contentVector = some pv ∧ cv.length ≠ pv.length) ∧
    (∀ (w : Workspace) (newId content : String) (cvo : Option (List ℝ))
        (src : String) (pids : List String),
      (∀ cv, cvo = some cv → ∀ pr ∈ resonanceContributors w pids,
        pr.1.length = cv.length) →
      ∃ res, w.createChunk newId content cvo src pids = .ok res) ∧
    (∀ (w : Workspace) (c : ThoughtChunk), ∃ w₂, w.addChunk c = w₂) ∧
    (∀ w : Workspace, ∃ w₂, w.decayActivations = w₂) ∧
    (∀ (w : Workspace) (n : ℕ), ∃ l, w.getMostActiveChunks n = l) ∧
    (∀ w : Workspace, ∃ l, w.findHighEnergyCluster = l) ∧
    (∀ (w : Workspace) (id : String), ∃ r, w.getChunk id = r) ∧
    (∀ w : Workspace, ∃ l, w.getAllChunks = l) := by
  refine ⟨?_, ?_, ?_, fun w c => ⟨_, rfl⟩, fun w => ⟨_, rfl⟩,
    fun w n => ⟨_, rfl⟩, fun w => ⟨_, rfl⟩, fun w id => ⟨_, rfl⟩,
    fun w => ⟨_, rfl⟩⟩
  · intro vecA vecB hne
    unfold cosineSimilarity
    rw [if_pos hne]
  · exact createChunk_error_char
  · intro w newId content cvo src pids hdims
    rcases cvo with - | cv
    · exact ⟨_, rfl⟩
    · rcases pids with - | ⟨p, rest⟩
      · exact ⟨_, rfl⟩
      · exact ⟨_, createChunk_some_ok w newId content src cv (p :: rest)
          (List.cons_ne_nil p rest) (hdims cv rfl)⟩

/-- Witness for C8: the mismatched-length error conjunct applied to the
concrete vectors [1] and [1, 2]. -/
theorem claim8_witness :
    ([(1 : ℝ)].length ≠ [(1 : ℝ), 2].length) ∧
      cosineSimilarity [(1 : ℝ)] [(1 : ℝ), 2] =
        .error "Vectors must have the same dimensions" :=
  ⟨by decide, claim8_preconditions.1 [(1 : ℝ)] [(1 : ℝ), 2] (by decide)⟩

/-! ## Claim C1 -/

/-- C1: a `createChunk` call with a non-empty embedding and non-empty
parent list (whose contributing parents all carry embeddings of the
same length as the supplied one, so the call completes) produces a
chunk whose initial activation energy is `baseActivationEnergy` plus
`maxResonanceFactor` times the average over the contributing parents —
exactly those parent ids present in the workspace and carrying an
embedding — of the cosine similarity to the parent weighted by the
parent's current activation energy, the resonance being 0 when no
parent contributes. -/
theorem claim1_createChunk_resonance (w : Workspace) (newId content src : String)
    (cv : List ℝ) (pids : List String) (hcv : cv ≠ []) (hp : pids ≠ [])
    (hdims : ∀ pr ∈ resonanceContributors w pids, pr.1.length = cv.length) :
    ∃ w₂ chunk, w.createChunk newId content (some cv) src pids = .ok (w₂, chunk) ∧
      chunk.activationEnergy =
        w.config.baseActivationEnergy +
          (if resonanceContributors w pids = [] then 0
           else w.config.maxResonanceFactor *
            (((resonanceContributors w pids).map
                (fun pr => cosSimVal cv pr.1 * pr.2)).sum /
              ((resonanceContributors w pids).length : ℝ))) := by
  refine ⟨_, _, createChunk_some_ok w newId content src cv pids hp hdims, ?_⟩
  show w.config.baseActivationEnergy + resonanceValue w cv pids = _
  unfold resonanceValue
  split
  · rfl
  · rw [mul_comm]

/-- Scenario B parent 1: embedding [1, 0], energy 4. -/
def scenarioBParent1 : ThoughtChunk :=
  { id := "p1", content := "", contentVector := some [1, 0],
    activationEnergy := 4, sourceAgentId := "user", parentIds := [] }

/-- Scenario B parent 2: embedding [0, 1], energy 2. -/
def scenarioBParent2 : ThoughtChunk :=
  { id := "p2", content := "", contentVector := some [0, 1],
    activationEnergy := 2, sourceAgentId := "user", parentIds := [] }

/-- Scenario B workspace: both parents, `maxResonanceFactor` 2. -/
def scenarioBWorkspace : Workspace :=
  { chunks := [scenarioBParent1, scenarioBParent2],
    config := { decayRate := 0.9, activationThreshold := 7,
                baseActivationEnergy := 1, maxResonanceFactor := 2 } }

theorem scenarioB_contributors :
    resonanceContributors scenarioBWorkspace ["p1", "p2"] =
      [([1, 0], 4), ([0, 1], 2)] := by
  rfl

theorem cosSimVal_same : cosSimVal [(1 : ℝ), 0] [(1 : ℝ), 0] = 1 := by
  unfold cosSimVal
  norm_num [Real.sqrt_one]

theorem cosSimVal_orth : cosSimVal [(1 : ℝ), 0] [(0 : ℝ), 1] = 0 := by
  unfold cosSimVal
  norm_num

/-- Witness for C1 (Scenario B): with parents embedded [1,0] at energy
4 and [0,1] at energy 2, new embedding [1,0] and maxResonanceFactor 2,
the created chunk's initial energy is `baseActivationEnergy + 4`. -/
theorem claim1_witness :
    ∃ w₂ chunk,
      scenarioBWorkspace.createChunk "n" "t" (some [1, 0]) "a" ["p1", "p2"] =
        .ok (w₂, chunk) ∧
      chunk.activationEnergy = scenarioBWorkspace.config.baseActivationEnergy + 4 := by
  obtain ⟨w₂, chunk, hcc, hen⟩ :=
    claim1_createChunk_resonance scenarioBWorkspace "n" "t" "a" [1, 0] ["p1", "p2"]
      (by simp) (by simp)
      (by
        rw [scenarioB_contributors]
        intro pr hpr
        rcases List.mem_cons.mp hpr with rfl | hpr2
        · rfl
        · rcases List.mem_cons.mp hpr2 with rfl | hpr3
          · rfl
          · cases hpr3)
  refine ⟨w₂, chunk, hcc, ?_⟩
  rw [hen, scenarioB_contributors]
  rw [if_neg (by simp)]
  norm_num [cosSimVal_same, cosSimVal_orth, scenarioBWorkspace]

/-! ## Claim C6 -/

theorem sumSq_nonneg (l : List ℝ) : 0 ≤ (l.map fun x => x * x).sum := by
  induction l with
  | nil => simp
  | cons x xs ih =>
    simp only [List.map_cons, List.sum_cons]
    exact add_nonneg (mul_self_nonneg x) ih

theorem sumSq_eq_zero_iff (l : List ℝ) :
    (l.map fun x => x * x).sum = 0 ↔ ∀ x ∈ l, x = 0 := by
  induction l with
  | nil => simp
  | cons x xs ih =>
    simp only [List.map_cons, List.sum_cons, List.mem_cons]
    rw [add_eq_zero_iff_of_nonneg (mul_self_nonneg x) (sumSq_nonneg xs),
      mul_self_eq_zero, ih]
    constructor
    · rintro ⟨rfl, h⟩ y (rfl | hy)
      · rfl
      · exact h y hy
    · intro h
      exact ⟨h x (Or.inl rfl), fun y hy => h y (Or.inr hy)⟩

theorem dot_sq_le (a : List ℝ) : ∀ b : List ℝ,
    ((List.zipWith (fun x y => x * y) a b).sum) ^ 2 ≤
      (a.map fun x => x * x).sum * (b.map fun x => x * x).sum := by
  induction a with
  | nil => intro b; simp
  | cons x xs ih =>
    intro b
    rcases b with - | ⟨y, ys⟩
    · simp
    · simp only [List.zipWith_cons_cons, List.sum_cons, List.map_cons]
      have h := ih ys
      have hA := sumSq_nonneg xs
      have hB := sumSq_nonneg ys
      set A := (xs.map fun x => x * x).sum with hAdef
      set B := (ys.map fun x => x * x).sum with hBdef
      set d := (List.zipWith (fun x y => x * y) xs ys).sum with hddef
      rcases eq_or_lt_of_le hB with hB0 | hBpos
      · have hd : d = 0 := by
          have h2 : d ^ 2 ≤ 0 := by rw [← hB0] at h; simpa using h
          have h3 := sq_nonneg d
          nlinarith
        rw [hd, ← hB0]
        nlinarith [mul_nonneg hA (sq_nonneg y), sq_nonneg (x * y)]
      · nlinarith [sq_nonneg (x * B - y * d),
          mul_nonneg (add_nonneg (sq_nonneg y) hB) (sub_nonneg.mpr h), hBpos]

/-- C6: for equal-length vectors, `cosineSimilarity` succeeds and its
value is symmetric in the two arguments, lies in [-1, 1] whenever both
vectors have non-zero norm, equals 0 when either squared norm is 0, and
a squared norm is 0 exactly when the vector is all-zero. -/
theorem claim6_cosine_similarity (a b : List ℝ) (h : a.length = b.length) :
    cosineSimilarity a b = .ok (cosSimVal a b) ∧
    cosSimVal a b = cosSimVal b a ∧
    ((a.map fun x => x * x).sum ≠ 0 → (b.map fun x => x * x).sum ≠ 0 →
      -1 ≤ cosSimVal a b ∧ cosSimVal a b ≤ 1) ∧
    ((a.map fun x => x * x).sum = 0 ∨ (b.map fun x => x * x).sum = 0 →
      cosSimVal a b = 0) ∧
    ((a.map fun x => x * x).sum = 0 ↔ ∀ x ∈ a, x = 0) := by
  refine ⟨cosineSimilarity_eq_ok h, ?_, ?_, ?_, sumSq_eq_zero_iff a⟩
  · unfold cosSimVal
    have hdot : (List.zipWith (fun x y => x * y) a b).sum =
        (List.zipWith (fun x y => x * y) b a).sum := by
      rw [List.zipWith_comm_of_comm (fun x y => x * y) mul_comm]
    rw [hdot]
    by_cases hA : (a.map fun x => x * x).sum = 0
    · simp [hA]
    · by_cases hB : (b.map fun x => x * x).sum = 0
      · simp [hB]
      · rw [if_neg (by tauto), if_neg (by tauto), mul_comm]
  · intro hA hB
    have hApos : 0 < (a.map fun x => x * x).sum :=
      lt_of_le_of_ne (sumSq_nonneg a) (Ne.symm hA)
    have hBpos : 0 < (b.map fun x => x * x).sum :=
      lt_of_le_of_ne (sumSq_nonneg b) (Ne.symm hB)
    have hsA : 0 < Real.sqrt (a.map fun x => x * x).sum := Real.sqrt_pos.mpr hApos
    have hsB : 0 < Real.sqrt (b.map fun x => x * x).sum := Real.sqrt_pos.mpr hBpos
    have habs : |(List.zipWith (fun x y => x * y) a b).sum| ≤
        Real.sqrt (a.map fun x => x * x).sum * Real.sqrt (b.map fun x => x * x).sum := by
      rw [← Real.sqrt_sq_eq_abs, ← Real.sqrt_mul (le_of_lt hApos)]
      exact Real.sqrt_le_sqrt (dot_sq_le a b)
    have hval : cosSimVal a b = (List.zipWith (fun x y => x * y) a b).sum /
        (Real.sqrt (a.map fun x => x * x).sum * Real.sqrt (b.map fun x => x * x).sum) := by
      unfold cosSimVal
      rw [if_neg (by tauto)]
    rw [hval]
    constructor
    · rw [neg_le, ← neg_div]
      apply div_le_one_of_le
      · exact le_trans (neg_le_abs _) habs
      · positivity
    · apply div_le_one_of_le
      · exact le_trans (le_abs_self _) habs
      · positivity
  · intro hor
    unfold cosSimVal
    rw [if_pos hor]

/-- Witness for C6: instantiated on the concrete equal-length vectors
[1, 0] and [0, 1]. -/
theorem claim6_witness :
    ([(1 : ℝ), 0].length = [(0 : ℝ), 1].length) ∧
      (cosineSimilarity [(1 : ℝ), 0] [(0 : ℝ), 1] =
        .ok (cosSimVal [(1 : ℝ), 0] [(0 : ℝ), 1]) ∧
      cosSimVal [(1 : ℝ), 0] [(0 : ℝ), 1] = cosSimVal [(0 : ℝ), 1] [(1 : ℝ), 0] ∧
      (([(1 : ℝ), 0].map fun x => x * x).sum ≠ 0 →
        ([(0 : ℝ), 1].map fun x => x * x).sum ≠ 0 →
        -1 ≤ cosSimVal [(1 : ℝ), 0] [(0 : ℝ), 1] ∧
          cosSimVal [(1 : ℝ), 0] [(0 : ℝ), 1] ≤ 1) ∧
      (([(1 : ℝ), 0].map fun x => x * x).sum = 0 ∨
        ([(0 : ℝ), 1].map fun x => x * x).sum = 0 →
        cosSimVal [(1 : ℝ), 0] [(0 : ℝ), 1] = 0) ∧
      (([(1 : ℝ), 0].map fun x => x * x).sum = 0 ↔
        ∀ x ∈ [(1 : ℝ), 0], x = 0)) :=
  ⟨rfl, claim6_cosine_similarity [(1 : ℝ), 0] [(0 : ℝ), 1] rfl⟩

/-! ## Claim C5 -/

/-- A chunk with negative activation energy, as can arise from a
negative resonance contribution (cosine similarity may be negative). -/
def negChunk : ThoughtChunk :=
  { id := "neg", content := "", contentVector := none, activationEnergy := -1,
    sourceAgentId := "user", parentIds := [] }

/-- C5, counterexample: the decay rate 1/2 lies in (0,1], yet applying
`decay (1/2)` to a chunk of activation energy -1 strictly increases its
activation energy (to -1/2), so decay is not monotonically
non-increasing for every chunk. -/
theorem claim5_counterexample :
    ((0 : ℝ) < 1 / 2 ∧ (1 / 2 : ℝ) ≤ 1) ∧
      negChunk.activationEnergy < (negChunk.decay (1 / 2)).activationEnergy := by
  refine ⟨⟨by norm_num, by norm_num⟩, ?_⟩
  show (-1 : ℝ) < -1 * (1 / 2)
  norm_num

/-- Scenario A workspace: decay rate 0.9, one chunk of energy 10. -/
def scenarioAChunk : ThoughtChunk :=
  { id := "a", content := "", contentVector := none, activationEnergy := 10,
    sourceAgentId := "user", parentIds := [] }

/-- Scenario A workspace: decay rate 0.9, one chunk of energy 10. -/
def scenarioAWorkspace : Workspace :=
  { chunks := [scenarioAChunk],
    config := { decayRate := 0.9, activationThreshold := 7,
                baseActivationEnergy := 1, maxResonanceFactor := 2 } }

/-- C5 (amended): `decay r` multiplies the activation energy by `r`;
for `r ∈ (0,1]` it never increases the energy of a chunk whose energy
is non-negative (for negative energies it can increase it, see the
counterexample); `decay 1` is a no-op; `decayActivations` applies
`decay decayRate` to every chunk of the workspace; and in Scenario A a
chunk of energy 10 has energy 9 after one `decayActivations` at decay
rate 0.9. -/
theorem claim5_decay :
    (∀ (c : ThoughtChunk) (r : ℝ),
      (c.decay r).activationEnergy = c.activationEnergy * r) ∧
    (∀ (c : ThoughtChunk) (r : ℝ), 0 ≤ c.activationEnergy → 0 < r → r ≤ 1 →
      (c.decay r).activationEnergy ≤ c.activationEnergy) ∧
    (∀ c : ThoughtChunk, c.decay 1 = c) ∧
    (∀ w : Workspace, (w.decayActivations).chunks =
      w.chunks.map (fun c => c.decay w.config.decayRate)) ∧
    (scenarioAWorkspace.decayActivations).chunks.map
      (fun c => c.activationEnergy) = [9] := by
  refine ⟨fun c r => rfl, fun c r h0 hr h1 => ?_, fun c => ?_, fun w => rfl, ?_⟩
  · calc (c.decay r).activationEnergy = c.activationEnergy * r := rfl
    _ ≤ c.activationEnergy * 1 := by
        exact mul_le_mul_of_nonneg_left h1 h0
    _ = c.activationEnergy := mul_one _
  · show { c with activationEnergy := c.activationEnergy * 1 } = c
    simp
  · show [scenarioAChunk.activationEnergy * (0.9 : ℝ)] = [9]
    norm_num [scenarioAChunk]

/-- Witness for C5: a concrete chunk of energy 10 and rate 0.9 ∈ (0,1]
on which the amended decay monotonicity applies. -/
theorem claim5_witness :
    ((0 : ℝ) ≤ scenarioAChunk.activationEnergy ∧ (0 : ℝ) < 0.9 ∧ (0.9 : ℝ) ≤ 1) ∧
      (scenarioAChunk.decay 0.9).activationEnergy ≤ scenarioAChunk.activationEnergy :=
  ⟨⟨by norm_num [scenarioAChunk], by norm_num, by norm_num⟩,
    claim5_decay.2.1 scenarioAChunk 0.9 (by norm_num [scenarioAChunk])
      (by norm_num) (by norm_num)⟩

/-! ## Claim C7 -/

/-- C7: `getMostActiveChunks n` returns at most `n` chunks, in
non-increasing order of activation energy, and is deterministic: two
calls on equal workspace states return the same list. -/
theorem claim7_getMostActiveChunks (w : Workspace) (n : ℕ) :
    (w.getMostActiveChunks n).length ≤ n ∧
    (w.getMostActiveChunks n).Pairwise
      (fun a b => b.activationEnergy ≤ a.activationEnergy) ∧
    (∀ w₂ : Workspace, w₂ = w → w₂.getMostActiveChunks n = w.getMostActiveChunks n) := by
  refine ⟨?_, getMostActiveChunks_pairwise w n, fun w₂ h => by rw [h]⟩
  exact (List.length_take n _).trans_le (min_le_left _ _)

/-- Witness for C7 (the determinism conjunct has a hypothesis):
instantiated on Scenario A's workspace with limit 10. -/
theorem claim7_witness :
    (scenarioAWorkspace.getMostActiveChunks 10).length ≤ 10 ∧
      scenarioAWorkspace.getMostActiveChunks 10 =
        scenarioAWorkspace.getMostActiveChunks 10 :=
  ⟨(claim7_getMostActiveChunks scenarioAWorkspace 10).1,
    (claim7_getMostActiveChunks scenarioAWorkspace 10).2.2 scenarioAWorkspace rfl⟩

/-! ## Claim C3 -/

/-- The meta-agent's analysis response as a function of the environment
and the user prompt: the generated text on success, the fixed error
text when the generation call fails (`MetaAgent.process` catches that
failure). -/
def metaResponseStr (env : Env) (userPrompt : String) : String :=
  match env.genText metaAgentSystemPrompt (metaUserPrompt userPrompt) with
  | .ok response => response
  | .error _ => "Error: Unable to generate agent definitions"

theorem metaProcess_eq (env : Env) (c : ThoughtChunk) (rest : List ThoughtChunk) :
    MetaAgent.process env (c :: rest) =
      if c.content = "" then .error "No user prompt provided to MetaAgent"
      else .ok (metaResponseStr env c.content) := by
  unfold MetaAgent.process metaResponseStr
  simp only [List.head?_cons]
  rcases h : env.genText metaAgentSystemPrompt (metaUserPrompt c.content) with e | r <;>
    simp [h]

theorem defineSpecialists_error_iff (env : Env) (st : OrchState) (metaId : String)
    (c : ThoughtChunk) :
    (∃ e, Orchestrator.defineSpecialists env st metaId [c] = .error e) ↔
      (c.content = "" ∨ env.parseDefs (metaResponseStr env c.content) = none) := by
  unfold Orchestrator.defineSpecialists
  rw [metaProcess_eq]
  by_cases hc : c.content = ""
  · simp [hc, errorBind]
  · rcases hp : env.parseDefs (metaResponseStr env c.content) with - | defs
    · simp [hc, hp, okBind]
    · simp only [hc, hp, if_false, okBind, ite_false]
      constructor
      · rintro ⟨e, he⟩
        exact absurd he (fun h => Except.noConfusion h)
      · rintro (h | h)
        · exact h.elim
        · exact Option.noConfusion h

/-- C3 (amended): a run aborts exactly when the specialist-definition
phase fails, which happens exactly when the user prompt is empty (the
meta-agent rejects it) or the parser yields a null result on the
analysis response; the propagated error is the fixed
"Failed to define specialists".  In particular a null parse aborts the
run before any cycle (no result record, hence no `cyclesExecuted`, is
ever produced), while an *empty* parsed list does not abort: the run
proceeds with zero specialists (see the counterexample). -/
theorem claim3_fatal_definition (env : Env) (wcfg : WorkspaceConfig)
    (cfg : OrchestratorConfig) (userPrompt : String) :
    (∀ e, Orchestrator.start env wcfg cfg userPrompt = .error e →
      e = "Failed to define specialists") ∧
    ((∃ e, Orchestrator.start env wcfg cfg userPrompt = .error e) ↔
      (userPrompt = "" ∨ env.parseDefs (metaResponseStr env userPrompt) = none)) := by
  constructor
  · intro e he
    simp only [Orchestrator.start] at he
    split at he
    · exact (Except.error.inj he).symm
    · exact Except.noConfusion he
  · constructor
    · rintro ⟨e, he⟩
      simp only [Orchestrator.start] at he
      split at he
      · rename_i e₀ heq
        exact (defineSpecialists_error_iff env _ _ _).mp ⟨e₀, heq⟩
      · exact Except.noConfusion he
    · intro hcase
      obtain ⟨e₀, he₀⟩ := (defineSpecialists_error_iff env
        { workspace := Workspace.addChunk { chunks := [], config := wcfg }
            { id := env.uuid 1, content := userPrompt, contentVector := none,
              activationEnergy := 5.0, sourceAgentId := "user", parentIds := [] },
          specialists := [], nextId := 2 } (env.uuid 0)
        { id := env.uuid 1, content := userPrompt, contentVector := none,
          activationEnergy := 5.0, sourceAgentId := "user", parentIds := [] }).mpr hcase
      refine ⟨"Failed to define specialists", ?_⟩
      simp only [Orchestrator.start]
      split
      · rfl
      · rename_i st2 hst2
        exact Except.noConfusion (he₀.symm.trans hst2)

/-! ## Claim C9 -/

theorem cycleLoop_count (env : Env) (m : ℕ) :
    ∀ (n k : ℕ) (st : OrchState) (bc : List String) (fb : String),
      m - k = n → k ≤ m → (cycleLoop env m st bc fb k).2.2.2 = m := by
  intro n
  induction n with
  | zero =>
    intro k st bc fb hn hk
    have hkm : k = m := by omega
    rw [cycleLoop, if_neg (by omega)]
    exact hkm
  | succ n ih =>
    intro k st bc fb hn hk
    have hklt : k < m := by omega
    rw [cycleLoop, if_pos hklt]
    have main : ∀ step : OrchState × Option String,
        (match step.2 with
         | some b =>
           if b = "" then cycleLoop env m step.1 bc fb (k + 1)
           else cycleLoop env m step.1 (bc ++ [b]) b (k + 1)
         | none => cycleLoop env m step.1 bc fb (k + 1)).2.2.2 = m := by
      rintro ⟨st₂, - | b⟩
      · exact ih (k + 1) _ _ _ (by omega) (by omega)
      · dsimp only
        split
        · exact ih (k + 1) _ _ _ (by omega) (by omega)
        · exact ih (k + 1) _ _ _ (by omega) (by omega)
    exact main (Orchestrator.runCognitiveCycle env st)

/-- C9: whenever a run returns a result (i.e. specialist definition
succeeded), the cycle loop has executed exactly `maxCycles` iterations
and the reported `cyclesExecuted` equals `maxCycles`, regardless of
what happens inside the cycles (empty workspace snapshots, failing
specialists, absent broadcasts): the loop never exits early. -/
theorem claim9_cycles_executed (env : Env) (wcfg : WorkspaceConfig)
    (cfg : OrchestratorConfig) (userPrompt : String) (r : CognitiveResult)
    (h : Orchestrator.start env wcfg cfg userPrompt = .ok r) :
    r.cyclesExecuted = cfg.maxCycles := by
  simp only [Orchestrator.start] at h
  split at h
  · exact Except.noConfusion h
  · rename_i st2 hst2
    have hr := Except.ok.inj h
    rw [← hr]
    exact cycleLoop_count env cfg.maxCycles (cfg.maxCycles - 0) 0 st2 [] "" rfl
      (Nat.zero_le _)

/-! ## A concrete run used to instantiate the orchestrator claims

The parser yields `some []` (an empty specialist list), generation
always succeeds with the text "resp", embedding generation always
fails, the activation threshold 100 is never reached, and `maxCycles`
is 1: the run completes one full cycle with zero specialists. -/

/-- Concrete environment: parses to an empty specialist list. -/
def env0 : Env :=
  { genText := fun _ _ => .ok "resp",
    generateEmbedding := fun _ => .error "no embedding",
    parseDefs := fun _ => some [],
    uuid := fun n => toString n,
    toFixed2 := fun _ => "0.00" }

/-- Concrete workspace configuration (decay rate 1, threshold 100). -/
def wcfg0 : WorkspaceConfig :=
  { decayRate := 1, activationThreshold := 100,
    baseActivationEnergy := 1, maxResonanceFactor := 2 }

/-- Concrete orchestrator configuration: one cycle. -/
def cfg0 : OrchestratorConfig := { maxCycles := 1, broadcastThreshold := 10 }

/-- The initial user chunk of the concrete run. -/
def initialChunk0 : ThoughtChunk :=
  { id := "1", content := "hello", contentVector := none,
    activationEnergy := 5.0, sourceAgentId := "user", parentIds := [] }

/-- The meta-response chunk of the concrete run. -/
def metaChunk0 : ThoughtChunk :=
  { id := "2", content := "resp", contentVector := none,
    activationEnergy := 3.0, sourceAgentId := "0", parentIds := ["1"] }

/-- Orchestrator state after specialist definition in the concrete run. -/
def st2val : OrchState :=
  { workspace := { chunks := [initialChunk0, metaChunk0], config := wcfg0 },
    specialists := [], nextId := 3 }

/-- State after the decay step of the concrete run's single cycle. -/
def st3val : OrchState :=
  { st2val with workspace := st2val.workspace.decayActivations }

theorem ds_eval : Orchestrator.defineSpecialists env0
    { workspace := Workspace.addChunk { chunks := [], config := wcfg0 }
        { id := env0.uuid 1, content := "hello", contentVector := none,
          activationEnergy := 5.0, sourceAgentId := "user", parentIds := [] },
      specialists := [], nextId := 2 } (env0.uuid 0)
    [{ id := env0.uuid 1, content := "hello", contentVector := none,
       activationEnergy := 5.0, sourceAgentId := "user", parentIds := [] }] =
    .ok st2val := by
  rfl

theorem active_eval : st2val.workspace.getMostActiveChunks 10 =
    [initialChunk0, metaChunk0] := by
  unfold Workspace.getMostActiveChunks sortByEnergyDesc
  simp only [st2val, List.foldr_cons, List.foldr_nil]
  rw [show insertByEnergyDesc metaChunk0 [] = [metaChunk0] from rfl]
  rw [show insertByEnergyDesc initialChunk0 [metaChunk0] =
    if metaChunk0.activationEnergy ≤ initialChunk0.activationEnergy
    then [initialChunk0, metaChunk0]
    else [metaChunk0, initialChunk0] from rfl]
  rw [if_pos (by norm_num [initialChunk0, metaChunk0])]
  rfl

theorem active30_eval : st3val.workspace.getMostActiveChunks 30 =
    [initialChunk0.decay 1, metaChunk0.decay 1] := by
  unfold Workspace.getMostActiveChunks sortByEnergyDesc
  have hch : st3val.workspace.chunks =
      [initialChunk0.decay 1, metaChunk0.decay 1] := rfl
  rw [hch]
  simp only [List.foldr_cons, List.foldr_nil]
  rw [show insertByEnergyDesc (metaChunk0.decay 1) [] = [metaChunk0.decay 1] from rfl]
  rw [show insertByEnergyDesc (initialChunk0.decay 1) [metaChunk0.decay 1] =
    if (metaChunk0.decay 1).activationEnergy ≤ (initialChunk0.decay 1).activationEnergy
    then [initialChunk0.decay 1, metaChunk0.decay 1]
    else [metaChunk0.decay 1, initialChunk0.decay 1] from rfl]
  rw [if_pos (by norm_num [initialChunk0, metaChunk0, ThoughtChunk.decay])]
  rfl

theorem scan_eval :
    (List.foldl (fun (acc : List (List ThoughtChunk) × List String) chunk =>
        if acc.2.contains chunk.id then acc
        else
          let res := exploreCluster chunk acc.2
            [initialChunk0.decay 1, metaChunk0.decay 1]
          if res.2.length > 0 then (acc.1 ++ [res.2], res.1) else (acc.1, res.1))
      ([], []) [initialChunk0.decay 1, metaChunk0.decay 1]) =
    ([[initialChunk0.decay 1, metaChunk0.decay 1]], ["2", "1"]) := by
  rfl

theorem cluster_eval : st3val.workspace.findHighEnergyCluster = [] := by
  unfold Workspace.findHighEnergyCluster
  rw [active30_eval]
  simp only [scan_eval, List.map_cons, List.map_nil, sortByTotalDesc,
    List.foldr_cons, List.foldr_nil, insertByTotalDesc]
  rw [if_neg]
  norm_num [clusterTotal, ThoughtChunk.decay, initialChunk0, metaChunk0,
    st3val, st2val, wcfg0, Workspace.decayActivations]

theorem runCycle_no_cluster (env : Env) (st : OrchState)
    (ac : List ThoughtChunk) (hac : st.workspace.getMostActiveChunks 10 = ac)
    (hne : ac.length ≠ 0) (hspec : st.specialists = [])
    (hclu : (Workspace.decayActivations st.workspace).findHighEnergyCluster = []) :
    Orchestrator.runCognitiveCycle env st =
      ({ st with workspace := st.workspace.decayActivations }, none) := by
  unfold Orchestrator.runCognitiveCycle
  rw [hac, if_neg hne, hspec]
  simp only [List.foldl_nil, hclu, List.length_nil, gt_iff_lt, lt_self_iff_false,
    if_false]
  rw [hspec]

theorem cyc0 : Orchestrator.runCognitiveCycle env0 st2val = (st3val, none) :=
  runCycle_no_cluster env0 st2val [initialChunk0, metaChunk0] active_eval
    (by norm_num) rfl cluster_eval

theorem loop_eval : cycleLoop env0 1 st2val [] "" 0 = (st3val, [], "", 1) := by
  rw [cycleLoop, if_pos (by norm_num)]
  simp only [cyc0]
  rw [cycleLoop, if_neg (by norm_num)]

/-- The result of the concrete run. -/
def result0 : CognitiveResult :=
  { finalBroadcast := "", broadcasts := [], cyclesExecuted := 1,
    thoughts := st3val.workspace.chunks, totalAgents := 1 }

theorem startEval0 : Orchestrator.start env0 wcfg0 cfg0 "hello" = .ok result0 := by
  simp only [Orchestrator.start]
  split
  · rename_i e he
    exact Except.noConfusion (ds_eval.symm.trans he)
  · rename_i st2 hst2
    have h2 : st2 = st2val := Except.ok.inj (hst2.symm.trans ds_eval)
    subst h2
    have hmc : cfg0.maxCycles = 1 := rfl
    rw [hmc, loop_eval]
    rfl

/-- C3, counterexample: the parser yields an *empty* (not null) list
on the analysis response, yet the run does not fail: it completes with
`cyclesExecuted = 1 > 0` and zero specialists, because the code only
aborts on a null parse (`![]` is falsy nowhere: an empty array is
truthy in JavaScript). -/
theorem claim3_counterexample :
    env0.parseDefs (metaResponseStr env0 "hello") = some [] ∧
    Orchestrator.start env0 wcfg0 cfg0 "hello" = .ok result0 ∧
    result0.cyclesExecuted = 1 :=
  ⟨rfl, startEval0, rfl⟩

/-- Witness for C3 (amended): a concrete environment whose parser
yields null, on which the run aborts with the fatal error. -/
def envNull : Env :=
  { env0 with parseDefs := fun _ => none }

theorem claim3_witness :
    ("hello" = "" ∨ envNull.parseDefs (metaResponseStr envNull "hello") = none) ∧
    (∃ e, Orchestrator.start envNull wcfg0 cfg0 "hello" = .error e) ∧
    (∀ e, Orchestrator.start envNull wcfg0 cfg0 "hello" = .error e →
      e = "Failed to define specialists") :=
  ⟨Or.inr rfl,
    (claim3_fatal_definition envNull wcfg0 cfg0 "hello").2.mpr (Or.inr rfl),
    fun e he => (claim3_fatal_definition envNull wcfg0 cfg0 "hello").1 e he⟩

/-- Witness for C9: the concrete run completes with
`cyclesExecuted = maxCycles = 1`. -/
theorem claim9_witness :
    Orchestrator.start env0 wcfg0 cfg0 "hello" = .ok result0 ∧
      result0.cyclesExecuted = cfg0.maxCycles :=
  ⟨startEval0, claim9_cycles_executed env0 wcfg0 cfg0 "hello" result0 startEval0⟩

/-! ## Claim C4 -/

theorem resonanceContributors_length (w : Workspace) (pids : List String) (L : ℕ)
    (hws : ∀ c ∈ w.chunks, ∀ v, c.contentVector = some v → v.length = L) :
    ∀ pr ∈ resonanceContributors w pids, pr.1.length = L := by
  intro pr hpr
  unfold resonanceContributors at hpr
  obtain ⟨pid, hpid, hf⟩ := List.mem_filterMap.mp hpr
  rcases hg : w.getChunk pid with - | p
  · simp only [hg] at hf
    exact Option.noConfusion hf
  · rcases hv : p.contentVector with - | pv
    · simp only [hg, hv] at hf
      exact Option.noConfusion hf
    · simp only [hg, hv] at hf
      have hmem : p ∈ w.chunks := List.mem_of_find?_eq_some hg
      have hL := hws p hmem pv hv
      cases hf
      exact hL

theorem createChunk_ok_cases (w : Workspace) (newId content : String)
    (cvo : Option (List ℝ)) (src : String) (pids : List String)
    (hdims : ∀ cv, cvo = some cv →
      ∀ pr ∈ resonanceContributors w pids, pr.1.length = cv.length) :
    ∃ chunk, w.createChunk newId content cvo src pids =
        .ok (w.addChunk chunk, chunk) ∧
      chunk.id = newId ∧ chunk.content = content ∧ chunk.contentVector = cvo ∧
      chunk.sourceAgentId = src ∧ chunk.parentIds = pids := by
  rcases cvo with - | cv
  · exact ⟨_, rfl, rfl, rfl, rfl, rfl, rfl⟩
  · rcases pids with - | ⟨p, rest⟩
    · exact ⟨_, rfl, rfl, rfl, rfl, rfl, rfl⟩
    · exact ⟨_, createChunk_some_ok w newId content src cv (p :: rest)
        (List.cons_ne_nil p rest) (hdims cv rfl), rfl, rfl, rfl, rfl, rfl⟩

theorem processBroadcast_genText_error (env : Env) (st : OrchState)
    (cluster : List ThoughtChunk) (e : String)
    (h : env.genText broadcastSystemPrompt
      (synthesisPromptFor (clusterContentFor cluster)) = .error e) :
    Orchestrator.processBroadcast env st cluster = (st, broadcastFailureSentinel) := by
  unfold Orchestrator.processBroadcast
  simp only [h]

/-- C4: in an environment producing embeddings of one fixed
dimensionality `L` (the stated contract of the embedding capability)
and a workspace whose recorded embeddings all have that length: when
the synthesis generation call fails, `processBroadcast` returns the
fixed sentinel string with the state unchanged (no chunk is added and
nothing is raised — the function is total); when it succeeds, a chunk
is created via `createChunk` with sourceId "broadcast" and the cluster
members' ids as parents, its energy is boosted by the constant 5.0, and
the synthesis text is returned. -/
theorem claim4_broadcast_synthesis (env : Env) (st : OrchState)
    (cluster : List ThoughtChunk) (L : ℕ)
    (henv : ∀ s v, env.generateEmbedding s = .ok v → v.length = L)
    (hws : ∀ c ∈ st.workspace.chunks, ∀ v, c.contentVector = some v → v.length = L) :
    (∀ e, env.genText broadcastSystemPrompt
        (synthesisPromptFor (clusterContentFor cluster)) = .error e →
      Orchestrator.processBroadcast env st cluster = (st, broadcastFailureSentinel)) ∧
    (∀ synthesis, env.genText broadcastSystemPrompt
        (synthesisPromptFor (clusterContentFor cluster)) = .ok synthesis →
      ∃ chunk,
        st.workspace.createChunk (env.uuid st.nextId) synthesis
          (env.generateEmbedding synthesis).toOption "broadcast"
          (cluster.map (fun c => c.id)) =
          .ok (st.workspace.addChunk chunk, chunk) ∧
        chunk.sourceAgentId = "broadcast" ∧
        chunk.parentIds = cluster.map (fun c => c.id) ∧
        (chunk.boost 5.0).activationEnergy = chunk.activationEnergy + 5.0 ∧
        Orchestrator.processBroadcast env st cluster =
          ({ st with
              workspace := (st.workspace.addChunk chunk).addChunk (chunk.boost 5.0),
              nextId := st.nextId + 1 }, synthesis)) := by
  constructor
  · exact fun e he => processBroadcast_genText_error env st cluster e he
  · intro synthesis hok
    have hdims : ∀ cv, (env.generateEmbedding synthesis).toOption = some cv →
        ∀ pr ∈ resonanceContributors st.workspace (cluster.map (fun c => c.id)),
          pr.1.length = cv.length := by
      intro cv hcv pr hpr
      rcases hemb : env.generateEmbedding synthesis with e₀ | v
      · rw [hemb] at hcv; cases hcv
      · rw [hemb] at hcv
        cases hcv
        rw [henv synthesis cv hemb]
        exact resonanceContributors_length st.workspace _ L hws pr hpr
    obtain ⟨chunk, hcc, hid, hcont, hcv, hsrc, hpid⟩ :=
      createChunk_ok_cases st.workspace (env.uuid st.nextId) synthesis
        (env.generateEmbedding synthesis).toOption "broadcast"
        (cluster.map (fun c => c.id)) hdims
    refine ⟨chunk, hcc, hsrc, hpid, rfl, ?_⟩
    unfold Orchestrator.processBroadcast
    simp only [hok, hcc]

/-- Concrete environment for the C4 witness: generation succeeds with
"synth", embeddings are the fixed 1-dimensional vector [1]. -/
def envSyn : Env :=
  { genText := fun _ _ => .ok "synth",
    generateEmbedding := fun _ => .ok [1],
    parseDefs := fun _ => some [],
    uuid := fun n => toString n,
    toFixed2 := fun _ => "0.00" }

/-- Concrete state for the C4 witness: empty workspace. -/
def stSyn : OrchState :=
  { workspace := { chunks := [], config := wcfg0 }, specialists := [], nextId := 0 }

/-- A cluster member for the C4 witness. -/
def chunkSyn : ThoughtChunk :=
  { id := "c", content := "t", contentVector := none,
    activationEnergy := 8, sourceAgentId := "a", parentIds := [] }

/-- Witness for C4: on the concrete environment the success branch
applies, and the broadcast synthesis returns "synth". -/
theorem claim4_witness :
    (Orchestrator.processBroadcast envSyn stSyn [chunkSyn]).2 = "synth" := by
  obtain ⟨-, h2⟩ := claim4_broadcast_synthesis envSyn stSyn [chunkSyn] 1
    (fun s v h => by cases h; rfl)
    (fun c hc => absurd hc (List.not_mem_nil c))
  obtain ⟨chunk, -, -, -, -, heq⟩ := h2 "synth" rfl
  rw [heq]

/-! ## Claim C10 -/

/-- C10: the sentinel "Error during broadcast synthesis" is a non-empty
(hence JavaScript-truthy) string; when the synthesis generation call
fails the cycle's broadcast is that sentinel and the broadcast phase
leaves the state untouched (in particular no chunk with source
"broadcast" is added that cycle); and the run loop treats any non-empty
broadcast string — sentinel or genuine synthesis, indistinguishably —
by appending it to the broadcasts list and making it the current final
broadcast. -/
theorem claim10_sentinel_broadcast :
    broadcastFailureSentinel ≠ "" ∧
    (∀ (env : Env) (st : OrchState) (cluster : List ThoughtChunk) (e : String),
      env.genText broadcastSystemPrompt
        (synthesisPromptFor (clusterContentFor cluster)) = .error e →
      Orchestrator.processBroadcast env st cluster = (st, broadcastFailureSentinel)) ∧
    (∀ (env : Env) (m : ℕ) (st st₂ : OrchState) (bc : List String)
        (fb b : String) (k : ℕ),
      k < m → Orchestrator.runCognitiveCycle env st = (st₂, some b) → b ≠ "" →
      cycleLoop env m st bc fb k = cycleLoop env m st₂ (bc ++ [b]) b (k + 1)) := by
  refine ⟨by decide, processBroadcast_genText_error, ?_⟩
  intro env m st st₂ bc fb b k hk hcyc hb
  rw [cycleLoop, if_pos hk]
  simp only [hcyc]
  rw [if_neg hb]

/-- Environment for the C10 witness: generation yields "B". -/
def env2 : Env :=
  { genText := fun _ _ => .ok "B",
    generateEmbedding := fun _ => .error "no embedding",
    parseDefs := fun _ => some [],
    uuid := fun n => toString n,
    toFixed2 := fun _ => "0.00" }

/-- Workspace configuration with reachable threshold 10. -/
def wcfgB : WorkspaceConfig :=
  { decayRate := 1, activationThreshold := 10,
    baseActivationEnergy := 1, maxResonanceFactor := 2 }

/-- A single high-energy chunk. -/
def bigChunk : ThoughtChunk :=
  { id := "b", content := "big", contentVector := none,
    activationEnergy := 20, sourceAgentId := "user", parentIds := [] }

/-- State before the C10 witness cycle. -/
def stB : OrchState :=
  { workspace := { chunks := [bigChunk], config := wcfgB },
    specialists := [], nextId := 7 }

/-- State after the decay step of the C10 witness cycle. -/
def stBd : OrchState := { stB with workspace := stB.workspace.decayActivations }

/-- Final state of the C10 witness cycle (after the broadcast). -/
def stBfin : OrchState :=
  (Orchestrator.processBroadcast env2 stBd [bigChunk.decay 1]).1

theorem runCycle_broadcast (env : Env) (st : OrchState)
    (ac hec : List ThoughtChunk) (hac : st.workspace.getMostActiveChunks 10 = ac)
    (hne : ac.length ≠ 0) (hspec : st.specialists = [])
    (hclu : (Workspace.decayActivations st.workspace).findHighEnergyCluster = hec)
    (hhe : 0 < hec.length) :
    Orchestrator.runCognitiveCycle env st =
      ((Orchestrator.processBroadcast env
          { st with workspace := st.workspace.decayActivations } hec).1,
        some (Orchestrator.processBroadcast env
          { st with workspace := st.workspace.decayActivations } hec).2) := by
  unfold Orchestrator.runCognitiveCycle
  rw [hac, if_neg hne, hspec]
  simp only [List.foldl_nil, hclu, gt_iff_lt, hhe, if_pos, if_true]
  rw [hspec]

theorem clusterB_eval : stBd.workspace.findHighEnergyCluster = [bigChunk.decay 1] := by
  have h : stBd.workspace.findHighEnergyCluster =
      (if stBd.workspace.config.activationThreshold ≤
          clusterTotal [bigChunk.decay 1] then [bigChunk.decay 1] else []) := rfl
  rw [h, if_pos]
  norm_num [clusterTotal, ThoughtChunk.decay, bigChunk, stBd, stB, wcfgB,
    Workspace.decayActivations]

theorem cycB : Orchestrator.runCognitiveCycle env2 stB =
    (stBfin, some "B") := by
  have h := runCycle_broadcast env2 stB [bigChunk] [bigChunk.decay 1] rfl
    (by norm_num) rfl clusterB_eval (by norm_num)
  rw [h]
  rfl

/-- Witness for C10: a concrete one-chunk cycle whose broadcast "B" is
non-empty; the run loop appends it and records it as the final
broadcast. -/
theorem claim10_witness :
    ((0 : ℕ) < 1 ∧ Orchestrator.runCognitiveCycle env2 stB = (stBfin, some "B") ∧
      ("B" : String) ≠ "") ∧
    cycleLoop env2 1 stB [] "" 0 = cycleLoop env2 1 stBfin ([] ++ ["B"]) "B" (0 + 1) :=
  ⟨⟨by norm_num, cycB, by decide⟩,
    claim10_sentinel_broadcast.2.2 env2 1 stB stBfin [] "" "B" 0 (by norm_num)
      cycB (by decide)⟩

/-! ## Claim C2: the clustering graph -/

/-- The undirected lineage relation of the clustering algorithm: one
chunk's `parentIds` contains the other's id. -/
def chunkEdge (a b : ThoughtChunk) : Prop :=
  b.id ∈ a.parentIds ∨ a.id ∈ b.parentIds

theorem chunkEdge_symm {a b : ThoughtChunk} (h : chunkEdge a b) : chunkEdge b a :=
  h.symm

/-- Connectivity restricted to the candidate set: the
reflexive-transitive closure of the undirected lineage relation, every
step landing in the candidate list. -/
def ConnectedIn (cand : List ThoughtChunk) (a b : ThoughtChunk) : Prop :=
  Relation.ReflTransGen (fun x y => y ∈ cand ∧ chunkEdge x y) a b

theorem ConnectedIn.mem_of {cand : List ThoughtChunk} {a b : ThoughtChunk}
    (ha : a ∈ cand) (h : ConnectedIn cand a b) : b ∈ cand := by
  induction h with
  | refl => exact ha
  | tail h₁ h₂ ih => exact h₂.1

theorem ConnectedIn.symm {cand : List ThoughtChunk} {a b : ThoughtChunk}
    (ha : a ∈ cand) (h : ConnectedIn cand a b) : ConnectedIn cand b a := by
  induction h with
  | refl => exact Relation.ReflTransGen.refl
  | tail h₁ h₂ ih =>
    have hb := ConnectedIn.mem_of ha h₁
    exact Relation.ReflTransGen.trans
      (Relation.ReflTransGen.single ⟨hb, chunkEdge_symm h₂.2⟩) ih

theorem ConnectedIn.trans {cand : List ThoughtChunk} {a b c : ThoughtChunk}
    (h₁ : ConnectedIn cand a b) (h₂ : ConnectedIn cand b c) :
    ConnectedIn cand a c :=
  Relation.ReflTransGen.trans h₁ h₂

theorem ConnectedIn.single {cand : List ThoughtChunk} {a b : ThoughtChunk}
    (hb : b ∈ cand) (h : chunkEdge a b) : ConnectedIn cand a b :=
  Relation.ReflTransGen.single ⟨hb, h⟩

/-- `S` enumerates, without id duplicates, exactly the candidates
connected to `c` inside the candidate set: the connected component of
`c`, as a list. -/
def IsCompList (cand : List ThoughtChunk) (c : ThoughtChunk)
    (S : List ThoughtChunk) : Prop :=
  (S.map (fun x => x.id)).Nodup ∧
  ∀ x, x ∈ S ↔ (x ∈ cand ∧ ConnectedIn cand c x)

theorem eq_of_id_eq {l : List ThoughtChunk}
    (hnd : (l.map (fun c => c.id)).Nodup) {a b : ThoughtChunk}
    (ha : a ∈ l) (hb : b ∈ l) (h : a.id = b.id) : a = b :=
  List.inj_on_of_nodup_map hnd ha hb h

theorem contains_mem {l : List String} {a : String} (h : l.contains a = true) :
    a ∈ l := by
  simpa using h

theorem mem_contains {l : List String} {a : String} (h : a ∈ l) :
    l.contains a = true := by
  simpa using h

theorem not_mem_of_contains_ne {l : List String} {a : String}
    (h : ¬ l.contains a = true) : a ∉ l := fun hm => h (mem_contains hm)

/-- Maximal number of chunks a single dequeue can enqueue: a chunk's
parent lookups plus a scan over all candidates. -/
def enqBound (cand : List ThoughtChunk) : ℕ :=
  cand.length + (cand.map (fun c => c.parentIds.length)).sum

/-- Number of candidates not yet visited. -/
def unvisitedCount (cand : List ThoughtChunk) (visited : List String) : ℕ :=
  (cand.filter (fun c => !(visited.contains c.id))).length

/-- Termination measure of the breadth-first loop. -/
def stepMeasure (cand : List ThoughtChunk) (queue : List ThoughtChunk)
    (visited : List String) : ℕ :=
  queue.length + unvisitedCount cand visited * (enqBound cand + 1)

theorem stepMeasure_le_fuel (cand : List ThoughtChunk) (visited : List String)
    (c : ThoughtChunk) : stepMeasure cand [c] visited ≤ exploreFuel cand := by
  unfold stepMeasure exploreFuel unvisitedCount enqBound
  have h1 : (cand.filter (fun c => !(visited.contains c.id))).length ≤ cand.length :=
    List.length_filter_le _ _
  have h2 : (cand.filter (fun c => !(visited.contains c.id))).length *
      (cand.length + (cand.map (fun c => c.parentIds.length)).sum + 1) ≤
      cand.length * (cand.length + (cand.map (fun c => c.parentIds.length)).sum + 1) :=
    Nat.mul_le_mul_right _ h1
  simpa [Nat.add_comm] using Nat.add_le_add_left h2 1

theorem filter_ne_length {l : List ThoughtChunk}
    (hnd : (l.map (fun c => c.id)).Nodup) {x : ThoughtChunk} (hx : x ∈ l)
    (p : ThoughtChunk → Bool) (hpx : p x = true) :
    (l.filter (fun c => !(c.id == x.id) && p c)).length + 1 = (l.filter p).length := by
  induction l with
  | nil => cases hx
  | cons y ys ih =>
    simp only [List.map_cons, List.nodup_cons] at hnd
    rcases List.mem_cons.mp hx with rfl | hx₂
    · have hys : ys.filter (fun c => !(c.id == x.id) && p c) = ys.filter p := by
        apply List.filter_congr
        intro c hc
        have hne : ¬ c.id = x.id :=
          fun he => hnd.1 (he ▸ List.mem_map_of_mem (fun c => c.id) hc)
        simp [hne]
      rw [List.filter_cons_of_neg (by simp [hpx]),
        List.filter_cons_of_pos hpx, hys, List.length_cons]
    · have hyx : ¬ y.id = x.id := by
        intro he
        exact hnd.1 (he ▸ List.mem_map_of_mem (fun c => c.id) hx₂)
      have ihh := ih hnd.2 hx₂
      by_cases hpy : p y = true
      · rw [List.filter_cons_of_pos (by simp [hyx, hpy]),
          List.filter_cons_of_pos hpy]
        simp only [List.length_cons]
        omega
      · rw [List.filter_cons_of_neg (by simp [hpy]),
          List.filter_cons_of_neg (by simpa using hpy)]
        exact ihh

theorem unvisitedCount_cons (cand : List ThoughtChunk)
    (hnd : (cand.map (fun c => c.id)).Nodup) {current : ThoughtChunk}
    (hc : current ∈ cand) {visited : List String}
    (hnv : visited.contains current.id = false) :
    unvisitedCount cand (current.id :: visited) + 1 = unvisitedCount cand visited := by
  unfold unvisitedCount
  have hfe : cand.filter (fun c => !((current.id :: visited).contains c.id)) =
      cand.filter (fun c => !(c.id == current.id) && !(visited.contains c.id)) := by
    apply List.filter_congr
    intro c _
    by_cases h : c.id = current.id <;> simp [List.contains_cons, h]
  rw [hfe]
  exact filter_ne_length hnd hc (fun c => !(visited.contains c.id))
    (by simp only [hnv, Bool.not_false])

theorem exploreClusterAux_cons (cand : List ThoughtChunk) (fuel : ℕ)
    (current : ThoughtChunk) (queue : List ThoughtChunk) (visited : List String)
    (cluster : List ThoughtChunk) :
    exploreClusterAux cand (fuel + 1) (current :: queue) visited cluster =
      if visited.contains current.id then
        exploreClusterAux cand fuel queue visited cluster
      else
        exploreClusterAux cand fuel
          (queue ++ current.parentIds.filterMap (fun parentId =>
              match cand.find? (fun c => c.id == parentId) with
              | some parentChunk =>
                if (current.id :: visited).contains parentId then none
                else some parentChunk
              | none => none) ++ cand.filter (fun c =>
              !((current.id :: visited).contains c.id) &&
                c.parentIds.contains current.id))
          (current.id :: visited) (cluster ++ [current]) := rfl

theorem mem_parentAdds {cand : List ThoughtChunk} {current : ThoughtChunk}
    {visited₁ : List String} {q : ThoughtChunk}
    (hq : q ∈ current.parentIds.filterMap (fun parentId =>
      match cand.find? (fun c => c.id == parentId) with
      | some parentChunk =>
        if visited₁.contains parentId then none else some parentChunk
      | none => none)) :
    q ∈ cand ∧ chunkEdge current q := by
  obtain ⟨pid, hpid, hf⟩ := List.mem_filterMap.mp hq
  rcases hfind : cand.find? (fun c => c.id == pid) with - | z
  · simp only [hfind] at hf
    exact Option.noConfusion hf
  · simp only [hfind] at hf
    by_cases hv : visited₁.contains pid = true
    · rw [if_pos hv] at hf; exact absurd hf (by simp)
    · rw [if_neg hv] at hf
      cases hf
      have hzc : q ∈ cand := List.mem_of_find?_eq_some hfind
      have hzid : q.id = pid := by simpa using List.find?_some hfind
      exact ⟨hzc, Or.inl (hzid ▸ hpid)⟩

theorem parentAdds_complete {cand : List ThoughtChunk}
    (hnd : (cand.map (fun c => c.id)).Nodup) {current y : ThoughtChunk}
    {visited₁ : List String} (hy : y ∈ cand) (hpe : y.id ∈ current.parentIds)
    (hnv : ¬ visited₁.contains y.id = true) :
    y ∈ current.parentIds.filterMap (fun parentId =>
      match cand.find? (fun c => c.id == parentId) with
      | some parentChunk =>
        if visited₁.contains parentId then none else some parentChunk
      | none => none) := by
  refine List.mem_filterMap.mpr ⟨y.id, hpe, ?_⟩
  have hsome : (cand.find? (fun c => c.id == y.id)).isSome := by
    rw [List.find?_isSome]
    exact ⟨y, hy, by simp⟩
  obtain ⟨z, hz⟩ := Option.isSome_iff_exists.mp hsome
  have hzc : z ∈ cand := List.mem_of_find?_eq_some hz
  have hzid : z.id = y.id := by simpa using List.find?_some hz
  have hzy : z = y := eq_of_id_eq hnd hzc hy hzid
  simp only [hz]
  rw [if_neg hnv, hzy]

theorem mem_childAdds {cand : List ThoughtChunk} {current : ThoughtChunk}
    {visited₁ : List String} {q : ThoughtChunk}
    (hq : q ∈ cand.filter (fun c =>
      !(visited₁.contains c.id) && c.parentIds.contains current.id)) :
    q ∈ cand ∧ chunkEdge current q := by
  obtain ⟨hqc, hb⟩ := List.mem_filter.mp hq
  refine ⟨hqc, Or.inr ?_⟩
  simp only [Bool.and_eq_true] at hb
  simpa using hb.2

theorem childAdds_complete {cand : List ThoughtChunk} {current y : ThoughtChunk}
    {visited₁ : List String} (hy : y ∈ cand) (hce : current.id ∈ y.parentIds)
    (hnv : visited₁.contains y.id = false) :
    y ∈ cand.filter (fun c =>
      !(visited₁.contains c.id) && c.parentIds.contains current.id) := by
  refine List.mem_filter.mpr ⟨hy, ?_⟩
  simp only [hnv, Bool.not_false, Bool.true_and]
  simpa using hce

/-- Correctness of the fuelled breadth-first loop: with enough fuel and
a queue of candidates, the loop visits every queued chunk, extends the
cluster exactly by a duplicate-free set `new` of previously unvisited
candidates, each connected to some queued chunk; every candidate
neighbour of a newly collected chunk ends up visited; and the final
visited set is the initial one plus exactly the ids of `new`. -/
theorem exploreAux_spec (cand : List ThoughtChunk)
    (hnd : (cand.map (fun c => c.id)).Nodup) :
    ∀ (fuel : ℕ) (queue : List ThoughtChunk) (visited : List String)
      (cluster : List ThoughtChunk),
      stepMeasure cand queue visited ≤ fuel →
      (∀ q ∈ queue, q ∈ cand) →
      (∀ i ∈ visited, i ∈ (exploreClusterAux cand fuel queue visited cluster).1) ∧
      (∀ q ∈ queue, q.id ∈ (exploreClusterAux cand fuel queue visited cluster).1) ∧
      (∃ new, (exploreClusterAux cand fuel queue visited cluster).2 = cluster ++ new ∧
        (new.map (fun c => c.id)).Nodup ∧
        (∀ x ∈ new, x ∈ cand ∧ x.id ∉ visited ∧ ∃ q ∈ queue, ConnectedIn cand q x) ∧
        (∀ x ∈ new, ∀ y ∈ cand, chunkEdge x y →
          y.id ∈ (exploreClusterAux cand fuel queue visited cluster).1) ∧
        (∀ i, i ∈ (exploreClusterAux cand fuel queue visited cluster).1 ↔
          i ∈ visited ∨ ∃ x ∈ new, x.id = i)) := by
  intro fuel
  induction fuel with
  | zero =>
    intro queue visited cluster hμ hq
    have hq0 : queue = [] := by
      unfold stepMeasure at hμ
      exact List.length_eq_zero.mp (by omega)
    subst hq0
    exact ⟨fun i hi => hi, fun q hq' => absurd hq' (List.not_mem_nil q),
      [], by simp [exploreClusterAux], by simp, by simp, by simp,
      fun i => by simp [exploreClusterAux]⟩
  | succ fuel ih =>
    intro queue visited cluster hμ hq
    rcases queue with - | ⟨current, rest⟩
    · exact ⟨fun i hi => hi, fun q hq' => absurd hq' (List.not_mem_nil q),
        [], by simp [exploreClusterAux], by simp, by simp, by simp,
        fun i => by simp [exploreClusterAux]⟩
    · rw [exploreClusterAux_cons]
      by_cases hvis : visited.contains current.id = true
      · rw [if_pos hvis]
        have hμ2 : stepMeasure cand rest visited ≤ fuel := by
          unfold stepMeasure at hμ ⊢
          simp only [List.length_cons] at hμ
          omega
        obtain ⟨c1, c2, new, hCf, hnodup, hsound, hclos, hiff⟩ :=
          ih rest visited cluster hμ2 (fun q h => hq q (List.mem_cons_of_mem _ h))
        refine ⟨c1, ?_, new, hCf, hnodup, ?_, hclos, hiff⟩
        · intro q hq'
          rcases List.mem_cons.mp hq' with rfl | h
          · exact c1 _ (contains_mem hvis)
          · exact c2 q h
        · intro x hx
          obtain ⟨ha, hb, q, hq', hc⟩ := hsound x hx
          exact ⟨ha, hb, q, List.mem_cons_of_mem _ hq', hc⟩
      · rw [if_neg hvis]
        have hcur : current ∈ cand := hq current (List.mem_cons_self _ _)
        have hvisf : visited.contains current.id = false := by
          cases h : visited.contains current.id
          · rfl
          · exact absurd h hvis
        have hcurnv : current.id ∉ visited := not_mem_of_contains_ne hvis
        generalize hPA : current.parentIds.filterMap (fun parentId =>
            match cand.find? (fun c => c.id == parentId) with
            | some parentChunk =>
              if (current.id :: visited).contains parentId then none
              else some parentChunk
            | none => none) = PA
        generalize hCA : cand.filter (fun c =>
            !((current.id :: visited).contains c.id) &&
              c.parentIds.contains current.id) = CA
        have hPAlen : PA.length ≤ current.parentIds.length := by
          rw [← hPA]; exact List.length_filterMap_le _ _
        have hCAlen : CA.length ≤ cand.length := by
          rw [← hCA]; exact List.length_filter_le _ _
        have hPsum : current.parentIds.length ≤
            (cand.map (fun c => c.parentIds.length)).sum :=
          List.single_le_sum (fun x _ => Nat.zero_le x) _
            (List.mem_map_of_mem _ hcur)
        have hU := unvisitedCount_cons cand hnd hcur hvisf
        have hμ2 : stepMeasure cand (rest ++ PA ++ CA) (current.id :: visited) ≤ fuel := by
          unfold stepMeasure at hμ ⊢
          simp only [List.length_append, List.length_cons] at hμ ⊢
          have hexp : unvisitedCount cand visited * (enqBound cand + 1) =
              unvisitedCount cand (current.id :: visited) * (enqBound cand + 1) +
                (enqBound cand + 1) := by
            rw [← hU]; ring
          have hB : current.parentIds.length + cand.length ≤ enqBound cand := by
            unfold enqBound; omega
          omega
        have hq2 : ∀ q ∈ rest ++ PA ++ CA, q ∈ cand := by
          intro q hq'
          rcases List.mem_append.mp hq' with h1 | hca
          · rcases List.mem_append.mp h1 with h2 | hpa
            · exact hq q (List.mem_cons_of_mem _ h2)
            · exact (mem_parentAdds (by rw [hPA]; exact hpa)).1
          · exact (mem_childAdds (by rw [hCA]; exact hca)).1
        obtain ⟨c1, c2, new', hCf, hnodup, hsound, hclos, hiff⟩ :=
          ih (rest ++ PA ++ CA) (current.id :: visited) (cluster ++ [current]) hμ2 hq2
        refine ⟨?_, ?_, current :: new', ?_, ?_, ?_, ?_, ?_⟩
        · intro i hi
          exact c1 i (List.mem_cons_of_mem _ hi)
        · intro q hq'
          rcases List.mem_cons.mp hq' with rfl | h
          · exact c1 q.id (List.mem_cons_self _ _)
          · exact c2 q (List.mem_append_left _ (List.mem_append_left _ h))
        · rw [hCf, List.append_assoc]
          rfl
        · simp only [List.map_cons, List.nodup_cons]
          refine ⟨?_, hnodup⟩
          intro hmem
          obtain ⟨x, hx, hid⟩ := List.mem_map.mp hmem
          have := (hsound x hx).2.1
          exact this (hid ▸ List.mem_cons_self _ _)
        · intro x hx
          rcases List.mem_cons.mp hx with rfl | hx'
          · exact ⟨hcur, hcurnv, x, List.mem_cons_self _ _,
              Relation.ReflTransGen.refl⟩
          · obtain ⟨xc, xnv, q, hq', conn⟩ := hsound x hx'
            refine ⟨xc, fun h => xnv (List.mem_cons_of_mem _ h), ?_⟩
            rcases List.mem_append.mp hq' with h1 | hca
            · rcases List.mem_append.mp h1 with h2 | hpa
              · exact ⟨q, List.mem_cons_of_mem _ h2, conn⟩
              · obtain ⟨hqc, hedge⟩ := mem_parentAdds (by rw [hPA]; exact hpa)
                exact ⟨current, List.mem_cons_self _ _,
                  ConnectedIn.trans (ConnectedIn.single hqc hedge) conn⟩
            · obtain ⟨hqc, hedge⟩ := mem_childAdds (by rw [hCA]; exact hca)
              exact ⟨current, List.mem_cons_self _ _,
                ConnectedIn.trans (ConnectedIn.single hqc hedge) conn⟩
        · intro x hx y hy hxy
          rcases List.mem_cons.mp hx with rfl | hx'
          · by_cases hyv : (x.id :: visited).contains y.id = true
            · exact c1 y.id (contains_mem hyv)
            · have hyvf : (x.id :: visited).contains y.id = false := by
                cases h : (x.id :: visited).contains y.id
                · rfl
                · exact absurd h hyv
              rcases hxy with hpe | hce
              · have hy' : y ∈ PA := by
                  rw [← hPA]; exact parentAdds_complete hnd hy hpe hyv
                exact c2 y (List.mem_append_left _ (List.mem_append_right _ hy'))
              · have hy' : y ∈ CA := by
                  rw [← hCA]; exact childAdds_complete hy hce hyvf
                exact c2 y (List.mem_append_right _ hy')
          · exact hclos x hx' y hy hxy
        · intro i
          rw [hiff i]
          simp only [List.mem_cons]
          constructor
          · rintro ((rfl | hv) | ⟨x, hx, hid⟩)
            · exact Or.inr ⟨current, Or.inl rfl, rfl⟩
            · exact Or.inl hv
            · exact Or.inr ⟨x, Or.inr hx, hid⟩
          · rintro (hv | ⟨x, (rfl | hx), hid⟩)
            · exact Or.inl (Or.inr hv)
            · exact Or.inl (Or.inl hid.symm)
            · exact Or.inr ⟨x, hx, hid⟩

/-- Invariant of the cluster-collection fold: the visited ids are
exactly the ids of the collected clusters' members, and every collected
cluster is the full connected component of one of the candidates. -/
def ScanInv (cand : List ThoughtChunk) (CLS : List (List ThoughtChunk))
    (V : List String) : Prop :=
  (∀ i, i ∈ V ↔ ∃ cl ∈ CLS, ∃ x ∈ cl, x.id = i) ∧
  (∀ cl ∈ CLS, ∃ c ∈ cand, IsCompList cand c cl)

theorem scan_spec (cand : List ThoughtChunk)
    (hnd : (cand.map (fun c => c.id)).Nodup) :
    ∀ (todo : List ThoughtChunk) (CLS : List (List ThoughtChunk)) (V : List String),
      (∀ q ∈ todo, q ∈ cand) → ScanInv cand CLS V →
      ScanInv cand
        (todo.foldl (fun (acc : List (List ThoughtChunk) × List String) chunk =>
          if acc.2.contains chunk.id then acc
          else
            let res := exploreCluster chunk acc.2 cand
            if res.2.length > 0 then (acc.1 ++ [res.2], res.1) else (acc.1, res.1))
          (CLS, V)).1
        (todo.foldl (fun (acc : List (List ThoughtChunk) × List String) chunk =>
          if acc.2.contains chunk.id then acc
          else
            let res := exploreCluster chunk acc.2 cand
            if res.2.length > 0 then (acc.1 ++ [res.2], res.1) else (acc.1, res.1))
          (CLS, V)).2 ∧
      (∀ i ∈ V, i ∈
        (todo.foldl (fun (acc : List (List ThoughtChunk) × List String) chunk =>
          if acc.2.contains chunk.id then acc
          else
            let res := exploreCluster chunk acc.2 cand
            if res.2.length > 0 then (acc.1 ++ [res.2], res.1) else (acc.1, res.1))
          (CLS, V)).2) ∧
      (∀ d ∈ todo, d.id ∈
        (todo.foldl (fun (acc : List (List ThoughtChunk) × List String) chunk =>
          if acc.2.contains chunk.id then acc
          else
            let res := exploreCluster chunk acc.2 cand
            if res.2.length > 0 then (acc.1 ++ [res.2], res.1) else (acc.1, res.1))
          (CLS, V)).2) := by
  intro todo
  induction todo with
  | nil =>
    intro CLS V htodo hinv
    exact ⟨hinv, fun i hi => hi, fun d hd => absurd hd (List.not_mem_nil d)⟩
  | cons chunk rest ih =>
    intro CLS V htodo hinv
    have hchunk : chunk ∈ cand := htodo chunk (List.mem_cons_self _ _)
    rw [List.foldl_cons]
    by_cases hv : V.contains chunk.id = true
    · have hstep : (if ((CLS, V) : List (List ThoughtChunk) × List String).2.contains
            chunk.id = true then ((CLS, V) : List (List ThoughtChunk) × List String)
          else
            let res := exploreCluster chunk (CLS, V).2 cand
            if res.2.length > 0 then ((CLS, V).1 ++ [res.2], res.1)
            else ((CLS, V).1, res.1)) = (CLS, V) := by
        simp only [hv, if_true]
      rw [hstep]
      obtain ⟨h1, h2, h3⟩ :=
        ih CLS V (fun q h => htodo q (List.mem_cons_of_mem _ h)) hinv
      refine ⟨h1, h2, ?_⟩
      intro d hd
      rcases List.mem_cons.mp hd with rfl | hd'
      · exact h2 d.id (contains_mem hv)
      · exact h3 d hd'
    · have hvf : V.contains chunk.id = false := by
        cases h : V.contains chunk.id
        · rfl
        · exact absurd h hv
      obtain ⟨c1, c2, new, hCf, hnodup, hsound, hclos, hiff⟩ :=
        exploreAux_spec cand hnd (exploreFuel cand) [chunk] V []
          (stepMeasure_le_fuel cand V chunk)
          (fun q hq => by rcases List.mem_cons.mp hq with rfl | h
                          · exact hchunk
                          · cases h)
      have hCf' : (exploreClusterAux cand (exploreFuel cand) [chunk] V []).2 = new := by
        simpa using hCf
      have hchunk_new : chunk ∈ new := by
        have hidVf : chunk.id ∈ (exploreClusterAux cand (exploreFuel cand) [chunk] V []).1 :=
          c2 chunk (List.mem_cons_self _ _)
        rcases (hiff chunk.id).mp hidVf with hV | ⟨x, hx, hxid⟩
        · exact absurd (mem_contains hV) hv
        · have hxc : x ∈ cand := (hsound x hx).1
          have : x = chunk := eq_of_id_eq hnd hxc hchunk hxid
          exact this ▸ hx
      have hlen : 0 < (exploreClusterAux cand (exploreFuel cand) [chunk] V []).2.length := by
        rw [hCf']
        exact List.length_pos.mpr (List.ne_nil_of_mem hchunk_new)
      have hstep : (if ((CLS, V) : List (List ThoughtChunk) × List String).2.contains
            chunk.id = true then ((CLS, V) : List (List ThoughtChunk) × List String)
          else
            let res := exploreCluster chunk (CLS, V).2 cand
            if res.2.length > 0 then ((CLS, V).1 ++ [res.2], res.1)
            else ((CLS, V).1, res.1)) =
          (CLS ++ [(exploreClusterAux cand (exploreFuel cand) [chunk] V []).2],
            (exploreClusterAux cand (exploreFuel cand) [chunk] V []).1) := by
        simp only [hvf, Bool.false_eq_true, if_false, exploreCluster]
        rw [if_pos hlen]
      rw [hstep, hCf']
      -- the new invariant
      have hpre : ∀ y, ConnectedIn cand chunk y → y.id ∉ V := by
        intro y hconn hyV
        obtain ⟨cl₀, hcl₀, z, hz, hzid⟩ := (hinv.1 y.id).mp hyV
        obtain ⟨c₀, hc₀, hcomp₀⟩ := hinv.2 cl₀ hcl₀
        have hz2 := (hcomp₀.2 z).mp hz
        have hy_cand : y ∈ cand := ConnectedIn.mem_of hchunk hconn
        have hzy : z = y := eq_of_id_eq hnd hz2.1 hy_cand hzid
        have hchunk_conn : ConnectedIn cand c₀ chunk :=
          ConnectedIn.trans (hzy ▸ hz2.2) (ConnectedIn.symm hchunk hconn)
        have hchunk_in : chunk ∈ cl₀ := (hcomp₀.2 chunk).mpr ⟨hchunk, hchunk_conn⟩
        have : chunk.id ∈ V := (hinv.1 chunk.id).mpr ⟨cl₀, hcl₀, chunk, hchunk_in, rfl⟩
        exact absurd (mem_contains this) hv
      have hcomp_new : IsCompList cand chunk new := by
        refine ⟨hnodup, fun x => ⟨?_, ?_⟩⟩
        · intro hx
          obtain ⟨hxc, -, q, hq, hconn⟩ := hsound x hx
          rcases List.mem_cons.mp hq with rfl | h
          · exact ⟨hxc, hconn⟩
          · cases h
        · rintro ⟨hxc, hconn⟩
          clear hxc
          induction hconn with
          | refl => exact hchunk_new
          | tail h₁ h₂ ihc =>
            rename_i b y
            have hb_new : b ∈ new := ihc
            have hyVf : y.id ∈
                (exploreClusterAux cand (exploreFuel cand) [chunk] V []).1 :=
              hclos b hb_new y h₂.1 h₂.2
            rcases (hiff y.id).mp hyVf with hyV | ⟨x₂, hx₂, hx₂id⟩
            · exact absurd hyV
                (hpre y (Relation.ReflTransGen.tail h₁ h₂))
            · have hx₂c : x₂ ∈ cand := (hsound x₂ hx₂).1
              have : x₂ = y := eq_of_id_eq hnd hx₂c h₂.1 hx₂id
              exact this ▸ hx₂
      have hinv' : ScanInv cand (CLS ++ [new])
          (exploreClusterAux cand (exploreFuel cand) [chunk] V []).1 := by
        constructor
        · intro i
          rw [hiff i]
          constructor
          · rintro (hV | ⟨x, hx, hxid⟩)
            · obtain ⟨cl₀, hcl₀, z, hz, hzid⟩ := (hinv.1 i).mp hV
              exact ⟨cl₀, List.mem_append_left _ hcl₀, z, hz, hzid⟩
            · exact ⟨new, List.mem_append_right _ (List.mem_singleton_self new),
                x, hx, hxid⟩
          · rintro ⟨cl₀, hcl₀, z, hz, hzid⟩
            rcases List.mem_append.mp hcl₀ with h | h
            · exact Or.inl ((hinv.1 i).mpr ⟨cl₀, h, z, hz, hzid⟩)
            · rw [List.mem_singleton.mp h] at hz
              exact Or.inr ⟨z, hz, hzid⟩
        · intro cl hcl
          rcases List.mem_append.mp hcl with h | h
          · exact hinv.2 cl h
          · rw [List.mem_singleton.mp h]
            exact ⟨chunk, hchunk, hcomp_new⟩
      obtain ⟨h1, h2, h3⟩ := ih (CLS ++ [new])
        (exploreClusterAux cand (exploreFuel cand) [chunk] V []).1
        (fun q h => htodo q (List.mem_cons_of_mem _ h)) hinv'
      refine ⟨h1, ?_, ?_⟩
      · intro i hi
        exact h2 i (c1 i hi)
      · intro d hd
        rcases List.mem_cons.mp hd with rfl | hd'
        · exact h2 d.id (c2 d (List.mem_cons_self _ _))
        · exact h3 d hd'

theorem insertByTotalDesc_perm (p : List ThoughtChunk × ℝ)
    (l : List (List ThoughtChunk × ℝ)) :
    List.Perm (insertByTotalDesc p l) (p :: l) := by
  induction l with
  | nil => simp [insertByTotalDesc]
  | cons q qs ih =>
    unfold insertByTotalDesc
    split
    · exact List.Perm.refl _
    · exact (List.Perm.cons q ih).trans (List.Perm.swap p q qs)

theorem sortByTotalDesc_perm (l : List (List ThoughtChunk × ℝ)) :
    List.Perm (sortByTotalDesc l) l := by
  induction l with
  | nil => simp [sortByTotalDesc]
  | cons p ps ih =>
    exact (insertByTotalDesc_perm p (sortByTotalDesc ps)).trans (List.Perm.cons p ih)

theorem insertByTotalDesc_pairwise (p : List ThoughtChunk × ℝ)
    (l : List (List ThoughtChunk × ℝ)) (h : l.Pairwise (fun a b => b.2 ≤ a.2)) :
    (insertByTotalDesc p l).Pairwise (fun a b => b.2 ≤ a.2) := by
  induction l with
  | nil => simp [insertByTotalDesc]
  | cons q qs ih =>
    rw [List.pairwise_cons] at h
    unfold insertByTotalDesc
    split
    · rename_i hlt
      refine List.pairwise_cons.mpr ⟨?_, List.pairwise_cons.mpr h⟩
      intro x hx
      rcases List.mem_cons.mp hx with rfl | hx
      · exact le_of_lt hlt
      · exact le_trans (h.1 x hx) (le_of_lt hlt)
    · rename_i hge
      refine List.pairwise_cons.mpr ⟨?_, ih h.2⟩
      intro x hx
      rcases List.mem_cons.mp ((insertByTotalDesc_perm p qs).mem_iff.mp hx) with rfl | hx
      · exact le_of_not_lt hge
      · exact h.1 x hx

theorem sortByTotalDesc_pairwise (l : List (List ThoughtChunk × ℝ)) :
    (sortByTotalDesc l).Pairwise (fun a b => b.2 ≤ a.2) := by
  induction l with
  | nil => simp [sortByTotalDesc]
  | cons p ps ih => exact insertByTotalDesc_pairwise p (sortByTotalDesc ps) ih

theorem getMostActiveChunks_id_nodup (w : Workspace)
    (hnd : (w.chunks.map (fun c => c.id)).Nodup) (n : ℕ) :
    ((w.getMostActiveChunks n).map (fun c => c.id)).Nodup := by
  unfold Workspace.getMostActiveChunks
  rw [List.map_take]
  refine List.Nodup.sublist (List.take_sublist _ _) ?_
  exact (((sortByEnergyDesc_perm w.chunks).map (fun c => c.id)).nodup_iff).mpr hnd

/-- The cluster-collection fold of `findHighEnergyCluster`. -/
def scanClusters (cand : List ThoughtChunk) :
    List (List ThoughtChunk) × List String :=
  cand.foldl (fun (acc : List (List ThoughtChunk) × List String) chunk =>
    if acc.2.contains chunk.id then acc
    else
      let res := exploreCluster chunk acc.2 cand
      if res.2.length > 0 then (acc.1 ++ [res.2], res.1) else (acc.1, res.1))
    ([], [])

/-- The final selection of `findHighEnergyCluster`: the top cluster of
the sorted activation list when it meets the threshold, else empty. -/
def topClusterSelect (w : Workspace) :
    List (List ThoughtChunk × ℝ) → List ThoughtChunk
  | [] => []
  | top :: _ => if w.config.activationThreshold ≤ top.2 then top.1 else []

theorem findHighEnergyCluster_eq (w : Workspace) :
    w.findHighEnergyCluster =
      topClusterSelect w
        (sortByTotalDesc ((scanClusters (w.getMostActiveChunks 30)).1.map
          (fun cluster => (cluster, clusterTotal cluster)))) := rfl

theorem clusterTotal_perm {S T : List ThoughtChunk} (h : List.Perm S T) :
    clusterTotal S = clusterTotal T := by
  unfold clusterTotal
  exact (h.map (fun c => c.activationEnergy)).sum_eq

/-- C2: on a workspace with distinct chunk ids, `findHighEnergyCluster`
returns either the empty list or exactly one connected component (under
the undirected parent/child relation restricted to the top-30
candidates); a non-empty result always has total activation at least
`activationThreshold`; and whenever any candidate's component reaches
the threshold, the result is non-empty with total at least that
component's total — so the returned cluster is the maximal-total
component and the empty list is returned exactly when no component
reaches the threshold. -/
theorem claim2_findHighEnergyCluster (w : Workspace)
    (hnd : (w.chunks.map (fun c => c.id)).Nodup) :
    (w.findHighEnergyCluster = [] ∨
      ∃ c ∈ w.getMostActiveChunks 30,
        IsCompList (w.getMostActiveChunks 30) c w.findHighEnergyCluster) ∧
    (w.findHighEnergyCluster ≠ [] →
      w.config.activationThreshold ≤ clusterTotal w.findHighEnergyCluster) ∧
    (∀ d ∈ w.getMostActiveChunks 30, ∀ S,
      IsCompList (w.getMostActiveChunks 30) d S →
      w.config.activationThreshold ≤ clusterTotal S →
      w.findHighEnergyCluster ≠ [] ∧
        clusterTotal S ≤ clusterTotal w.findHighEnergyCluster) := by
  have hndc : ((w.getMostActiveChunks 30).map (fun c => c.id)).Nodup :=
    getMostActiveChunks_id_nodup w hnd 30
  obtain ⟨⟨hVi, hComps⟩, -, hCover⟩ :=
    scan_spec (w.getMostActiveChunks 30) hndc (w.getMostActiveChunks 30) [] []
      (fun q h => h) ⟨by simp, by simp⟩
  have hVi' : ∀ i, i ∈ (scanClusters (w.getMostActiveChunks 30)).2 ↔
      ∃ cl ∈ (scanClusters (w.getMostActiveChunks 30)).1, ∃ x ∈ cl, x.id = i := hVi
  have hComps' : ∀ cl ∈ (scanClusters (w.getMostActiveChunks 30)).1,
      ∃ c ∈ w.getMostActiveChunks 30,
        IsCompList (w.getMostActiveChunks 30) c cl := hComps
  have hCover' : ∀ d ∈ w.getMostActiveChunks 30,
      d.id ∈ (scanClusters (w.getMostActiveChunks 30)).2 := hCover
  rw [findHighEnergyCluster_eq w]
  rcases hsort : sortByTotalDesc ((scanClusters (w.getMostActiveChunks 30)).1.map
      (fun cluster => (cluster, clusterTotal cluster))) with - | ⟨top, stail⟩
  · -- no clusters at all: the candidate list must be empty
    have hacts : (scanClusters (w.getMostActiveChunks 30)).1.map
        (fun cluster => (cluster, clusterTotal cluster)) = [] := by
      have hp := sortByTotalDesc_perm ((scanClusters (w.getMostActiveChunks 30)).1.map
        (fun cluster => (cluster, clusterTotal cluster)))
      rw [hsort] at hp
      exact hp.symm.eq_nil
    simp only [topClusterSelect]
    refine ⟨Or.inl trivial, fun h => absurd rfl h, ?_⟩
    intro d hd S hS hSth
    have hdv := hCover' d hd
    obtain ⟨cl, hcl, -⟩ := (hVi' d.id).mp hdv
    rw [List.map_eq_nil.mp hacts] at hcl
    cases hcl
  · simp only [topClusterSelect]
    have htop_mem : top ∈ (scanClusters (w.getMostActiveChunks 30)).1.map
        (fun cluster => (cluster, clusterTotal cluster)) := by
      have hp := sortByTotalDesc_perm ((scanClusters (w.getMostActiveChunks 30)).1.map
        (fun cluster => (cluster, clusterTotal cluster)))
      rw [hsort] at hp
      exact hp.subset (List.mem_cons_self _ _)
    obtain ⟨cl₁, hcl₁, heq⟩ := List.mem_map.mp htop_mem
    obtain ⟨c₁, hc₁cand, hcomp₁⟩ := hComps' cl₁ hcl₁
    have hc₁mem : c₁ ∈ cl₁ :=
      (hcomp₁.2 c₁).mpr ⟨hc₁cand, Relation.ReflTransGen.refl⟩
    have hne₁ : cl₁ ≠ [] := List.ne_nil_of_mem hc₁mem
    have htopmax : ∀ q ∈ (scanClusters (w.getMostActiveChunks 30)).1.map
        (fun cluster => (cluster, clusterTotal cluster)), q.2 ≤ top.2 := by
      intro q hq
      have hp := sortByTotalDesc_perm ((scanClusters (w.getMostActiveChunks 30)).1.map
        (fun cluster => (cluster, clusterTotal cluster)))
      have hq2 : q ∈ top :: stail := by
        rw [← hsort]
        exact hp.mem_iff.mpr hq
      have hpw := sortByTotalDesc_pairwise ((scanClusters (w.getMostActiveChunks 30)).1.map
        (fun cluster => (cluster, clusterTotal cluster)))
      rw [hsort, List.pairwise_cons] at hpw
      rcases List.mem_cons.mp hq2 with rfl | hq3
      · exact le_refl _
      · exact hpw.1 q hq3
    refine ⟨?_, ?_, ?_⟩
    · by_cases hth : w.config.activationThreshold ≤ top.2
      · rw [if_pos hth]
        exact Or.inr ⟨c₁, hc₁cand, by rw [← heq]; exact hcomp₁⟩
      · rw [if_neg hth]
        exact Or.inl rfl
    · intro hres
      by_cases hth : w.config.activationThreshold ≤ top.2
      · rw [if_pos hth]
        have htop1 : clusterTotal top.1 = top.2 := by
          rw [← heq]
        rw [htop1]
        exact hth
      · rw [if_neg hth] at hres
        exact absurd rfl hres
    · intro d hd S hS hSth
      have hdv := hCover' d hd
      obtain ⟨cl₂, hcl₂, z, hz, hzid⟩ := (hVi' d.id).mp hdv
      obtain ⟨c₂, hc₂cand, hcomp₂⟩ := hComps' cl₂ hcl₂
      have hzc : z ∈ w.getMostActiveChunks 30 := ((hcomp₂.2 z).mp hz).1
      have hzd : z = d := eq_of_id_eq hndc hzc hd hzid
      have hd_in : d ∈ cl₂ := hzd ▸ hz
      have hconn_c₂d : ConnectedIn (w.getMostActiveChunks 30) c₂ d :=
        ((hcomp₂.2 d).mp hd_in).2
      have hmemeq : ∀ x, x ∈ S ↔ x ∈ cl₂ := by
        intro x
        rw [hS.2 x, hcomp₂.2 x]
        constructor
        · rintro ⟨hxc, hconn⟩
          exact ⟨hxc, ConnectedIn.trans hconn_c₂d hconn⟩
        · rintro ⟨hxc, hconn⟩
          exact ⟨hxc, ConnectedIn.trans
            (ConnectedIn.symm hc₂cand hconn_c₂d) hconn⟩
      have hperm : List.Perm S cl₂ :=
        (List.perm_ext_iff_of_nodup (hS.1.of_map) (hcomp₂.1.of_map)).mpr hmemeq
      have htotS : clusterTotal S = clusterTotal cl₂ := clusterTotal_perm hperm
      have h2mem : (cl₂, clusterTotal cl₂) ∈
          (scanClusters (w.getMostActiveChunks 30)).1.map
            (fun cluster => (cluster, clusterTotal cluster)) :=
        List.mem_map_of_mem _ hcl₂
      have hle : clusterTotal cl₂ ≤ top.2 := htopmax _ h2mem
      have hthr : w.config.activationThreshold ≤ top.2 := by
        rw [htotS] at hSth
        exact le_trans hSth hle
      rw [if_pos hthr]
      constructor
      · rw [← heq]
        exact hne₁
      · have htop1 : clusterTotal top.1 = top.2 := by
          rw [← heq]
        rw [htop1, htotS]
        exact hle

/-- Scenario C chunk A (no parents, energy 5). -/
def chunkA : ThoughtChunk :=
  { id := "A", content := "", contentVector := none,
    activationEnergy := 5, sourceAgentId := "user", parentIds := [] }

/-- Scenario C chunk B (parent A, energy 5). -/
def chunkB : ThoughtChunk :=
  { id := "B", content := "", contentVector := none,
    activationEnergy := 5, sourceAgentId := "user", parentIds := ["A"] }

/-- Scenario C chunk C (parent B, energy 5). -/
def chunkC : ThoughtChunk :=
  { id := "C", content := "", contentVector := none,
    activationEnergy := 5, sourceAgentId := "user", parentIds := ["B"] }

/-- Scenario C workspace: chain A → B → C, threshold 12. -/
def scenarioCWorkspace : Workspace :=
  { chunks := [chunkA, chunkB, chunkC],
    config := { decayRate := 0.9, activationThreshold := 12,
                baseActivationEnergy := 1, maxResonanceFactor := 2 } }

theorem scenarioC_nodup :
    (scenarioCWorkspace.chunks.map (fun c => c.id)).Nodup := by
  show (["A", "B", "C"] : List String).Nodup
  decide

theorem scenarioC_cand : scenarioCWorkspace.getMostActiveChunks 30 =
    [chunkA, chunkB, chunkC] := by
  unfold Workspace.getMostActiveChunks sortByEnergyDesc
  show ((insertByEnergyDesc chunkA (insertByEnergyDesc chunkB
    (insertByEnergyDesc chunkC []))).take 30) = _
  rw [show insertByEnergyDesc chunkC [] = [chunkC] from rfl]
  rw [show insertByEnergyDesc chunkB [chunkC] =
    if chunkC.activationEnergy ≤ chunkB.activationEnergy
    then [chunkB, chunkC] else [chunkC, chunkB] from rfl]
  rw [if_pos (by norm_num [chunkB, chunkC])]
  rw [show insertByEnergyDesc chunkA [chunkB, chunkC] =
    if chunkB.activationEnergy ≤ chunkA.activationEnergy
    then [chunkA, chunkB, chunkC]
    else chunkB :: insertByEnergyDesc chunkA [chunkC] from rfl]
  rw [if_pos (by norm_num [chunkA, chunkB])]
  rfl

theorem scenarioC_comp :
    IsCompList (scenarioCWorkspace.getMostActiveChunks 30) chunkA
      [chunkA, chunkB, chunkC] := by
  rw [scenarioC_cand]
  have hA : chunkA ∈ [chunkA, chunkB, chunkC] := by simp
  have hB : chunkB ∈ [chunkA, chunkB, chunkC] := by simp
  have hC : chunkC ∈ [chunkA, chunkB, chunkC] := by simp
  have hAB : ConnectedIn [chunkA, chunkB, chunkC] chunkA chunkB :=
    ConnectedIn.single hB (Or.inr (by simp [chunkA, chunkB]))
  have hBC : ConnectedIn [chunkA, chunkB, chunkC] chunkB chunkC :=
    ConnectedIn.single hC (Or.inr (by simp [chunkB, chunkC]))
  constructor
  · show (["A", "B", "C"] : List String).Nodup
    decide
  · intro x
    constructor
    · intro hx
      rcases List.mem_cons.mp hx with rfl | hx'
      · exact ⟨hA, Relation.ReflTransGen.refl⟩
      · rcases List.mem_cons.mp hx' with rfl | hx₂
        · exact ⟨hB, hAB⟩
        · rcases List.mem_cons.mp hx₂ with rfl | hx₃
          · exact ⟨hC, ConnectedIn.trans hAB hBC⟩
          · cases hx₃
    · rintro ⟨hx, -⟩
      exact hx

/-- Witness for C2 (Scenario C): for the chain A → B → C with energies
5 each and threshold 12, the returned cluster contains all three
chunks. -/
theorem claim2_witness :
    (scenarioCWorkspace.chunks.map (fun c => c.id)).Nodup ∧
    chunkA ∈ scenarioCWorkspace.findHighEnergyCluster ∧
    chunkB ∈ scenarioCWorkspace.findHighEnergyCluster ∧
    chunkC ∈ scenarioCWorkspace.findHighEnergyCluster := by
  refine ⟨scenarioC_nodup, ?_⟩
  obtain ⟨ha, -, hc⟩ := claim2_findHighEnergyCluster scenarioCWorkspace scenarioC_nodup
  have hAmem : chunkA ∈ scenarioCWorkspace.getMostActiveChunks 30 := by
    rw [scenarioC_cand]; simp
  have hth : scenarioCWorkspace.config.activationThreshold ≤
      clusterTotal [chunkA, chunkB, chunkC] := by
    show (12 : ℝ) ≤ clusterTotal [chunkA, chunkB, chunkC]
    norm_num [clusterTotal, chunkA, chunkB, chunkC]
  obtain ⟨hne, -⟩ := hc chunkA hAmem [chunkA, chunkB, chunkC] scenarioC_comp hth
  rcases ha with h0 | ⟨c, hccand, hcomp⟩
  · exact absurd h0 hne
  · have hcand := scenarioC_cand
    have hcA : ConnectedIn (scenarioCWorkspace.getMostActiveChunks 30) chunkA c :=
      ((scenarioC_comp.2 c).mp (hcand ▸ hccand)).2
  -- every member of the single component is in the result
    have hconnA : ConnectedIn (scenarioCWorkspace.getMostActiveChunks 30) c chunkA :=
      ConnectedIn.symm (by rw [hcand]; simp) hcA
    have hmemA : chunkA ∈ scenarioCWorkspace.findHighEnergyCluster :=
      (hcomp.2 chunkA).mpr ⟨by rw [hcand]; simp, hconnA⟩
    have hAB : ConnectedIn (scenarioCWorkspace.getMostActiveChunks 30) chunkA chunkB :=
      ConnectedIn.single (by rw [hcand]; simp) (Or.inr (by simp [chunkA, chunkB]))
    have hBC : ConnectedIn (scenarioCWorkspace.getMostActiveChunks 30) chunkB chunkC :=
      ConnectedIn.single (by rw [hcand]; simp) (Or.inr (by simp [chunkB, chunkC]))
    have hmemB : chunkB ∈ scenarioCWorkspace.findHighEnergyCluster :=
      (hcomp.2 chunkB).mpr ⟨by rw [hcand]; simp, ConnectedIn.trans hconnA hAB⟩
    have hmemC : chunkC ∈ scenarioCWorkspace.findHighEnergyCluster :=
      (hcomp.2 chunkC).mpr ⟨by rw [hcand]; simp,
        ConnectedIn.trans (ConnectedIn.trans hconnA hAB) hBC⟩
    exact ⟨hmemA, hmemB, hmemC⟩

end

end Axon
